import Mathlib

/-!
Verification development for the Moshou_Sapient surveillance pipeline.

This file gives a shallow embedding of the core of the pipeline:

* `src/moshousapient/utils/geometry_utils.py` — the tripwire side function;
* `src/moshousapient/processors/event_processor.py` — the per-frame event
  state machine (`EventProcessor`): tripwire logic, dwell logic, event type
  elevation, buffer routing, event start/stop/segmentation, encoder hand-off;
* `src/moshousapient/services/video_recorder.py` — `encode_and_send_video`
  and `_process_reid_and_db` (Re-ID dedup, intra-event clustering, gallery
  reconciliation, merge and commit, event persistence, notification);
* `src/moshousapient/processors/inference_processor.py` — the per-frame
  publication of analytics into the shared state block.

Numeric values (Python floats) are idealised as rationals.  Feature vectors
are opaque handles (naturals); byte-identical serialisation corresponds to
equality of handles, and the cosine similarity computed by the external
`cosine_similarity` helper is threaded through as an explicit function
parameter `sim`, since the clustering discipline only ever compares its
values against thresholds.  Dictionaries are embedded as association lists,
Python sets as finite sets, and the fallible database commits as explicit
Boolean success parameters.
-/

namespace Moshou

/-! ## Geometry (`utils/geometry_utils.py`) -/

/-- A 2-D point with rational coordinates (idealising Python floats). -/
structure Pt where
  x : ℚ
  y : ℚ
deriving DecidableEq, Repr

/-- Tolerance `1e-9` used by `get_point_side_of_line`. -/
def sideTol : ℚ := 1 / 1000000000

/-- Embedding of `geometry_utils.get_point_side_of_line`: the side of point
`p` relative to the directed line `line_p1 -> line_p2`, computed from the 2-D
cross product `val`; returns `-1` (right) when `val > tol`, `1` (left) when
`val < -tol`, and `0` (on or very near the line) otherwise. -/
def get_point_side_of_line (p line_p1 line_p2 : Pt) : ℤ :=
  let val : ℚ := (line_p2.x - line_p1.x) * (p.y - line_p1.y) -
    (line_p2.y - line_p1.y) * (p.x - line_p1.x)
  if val > sideTol then -1
  else if val < -sideTol then 1
  else 0

/-- Cross product of `oa` and `ob` (orientation of the triple `o a b`). -/
def cross2 (o a b : Pt) : ℚ :=
  (a.x - o.x) * (b.y - o.y) - (a.y - o.y) * (b.x - o.x)

/-- Sign of a rational, as an integer in `{-1, 0, 1}`. -/
def qsign (v : ℚ) : ℤ :=
  if v > 0 then 1 else if v < 0 then -1 else 0

/-- Given `p` collinear with segment `a b`, whether `p` lies within its
bounding box (hence on the segment). -/
def onSegBox (a b p : Pt) : Bool :=
  decide (min a.x b.x ≤ p.x ∧ p.x ≤ max a.x b.x ∧
    min a.y b.y ≤ p.y ∧ p.y ≤ max a.y b.y)

/-- Embedding of shapely `LineString.intersects` for two line segments
`p1 q1` and `p2 q2` (exact arithmetic): true exactly when the segments share
at least one point, by the classical orientation test with the collinear
special cases. -/
def seg_intersects (p1 q1 p2 q2 : Pt) : Bool :=
  let d1 := qsign (cross2 p2 q2 p1)
  let d2 := qsign (cross2 p2 q2 q1)
  let d3 := qsign (cross2 p1 q1 p2)
  let d4 := qsign (cross2 p1 q1 q2)
  (((d1 = 1 ∧ d2 = -1) ∨ (d1 = -1 ∧ d2 = 1)) ∧
    ((d3 = 1 ∧ d4 = -1) ∨ (d3 = -1 ∧ d4 = 1)) : Bool) ||
  (d1 = 0 : Bool) && onSegBox p2 q2 p1 ||
  (d2 = 0 : Bool) && onSegBox p2 q2 q1 ||
  (d3 = 0 : Bool) && onSegBox p1 q1 p2 ||
  (d4 = 0 : Bool) && onSegBox p1 q1 q2

/-! ## Event type elevation (`EventProcessor._set_event_type`) -/

/-- The priority map `{"tripwire_alert": 2, "dwell_alert": 1,
"person_detected": 0}` with `.get` default `-1` for unknown strings. -/
def priority_map (s : String) : ℤ :=
  if s = "tripwire_alert" then 2
  else if s = "dwell_alert" then 1
  else if s = "person_detected" then 0
  else -1

/-- Priority of the current event type (`None` has priority `-1`). -/
def type_priority : Option String → ℤ
  | none => -1
  | some s => priority_map s

/-- Embedding of `EventProcessor._set_event_type`: adopt `new_type` only when
its priority strictly exceeds the current one. -/
def set_event_type (cur : Option String) (new_type : String) : Option String :=
  if type_priority cur < priority_map new_type then some new_type else cur

/-! ## Association-list dictionaries -/

/-- Dictionary lookup on an association list. -/
def alist_get {α : Type} (m : List (ℕ × α)) (k : ℕ) : Option α :=
  (m.find? (fun e => e.1 == k)).map (fun e => e.2)

/-- Dictionary write `m[k] = v` on an association list (replace in place when
the key is present, append otherwise). -/
def alist_set {α : Type} (m : List (ℕ × α)) (k : ℕ) (v : α) : List (ℕ × α) :=
  if m.any (fun e => e.1 == k) then
    m.map (fun e => if e.1 == k then (k, v) else e)
  else m ++ [(k, v)]

/-- Key list of an association-list dictionary. -/
def alist_keys {α : Type} (m : List (ℕ × α)) : List ℕ :=
  m.map (fun e => e.1)

/-- Remove every key of `m` that is not in `keep` (the "disappeared ids"
cleanup loops). -/
def alist_restrict {α : Type} (m : List (ℕ × α)) (keep : List ℕ) : List (ℕ × α) :=
  m.filter (fun e => e.1 ∈ keep)

/-- Dictionary deletion `del m[k]` on an association list. -/
def alist_del {α : Type} (m : List (ℕ × α)) (k : ℕ) : List (ℕ × α) :=
  m.filter (fun e => e.1 ≠ k)

/-! ## Tracks and tripwires (`processors/event_processor.py`) -/

/-- A tracker output row `(x1, y1, x2, y2, track_id)` (`track[:5]`). -/
structure Track where
  x1 : ℚ
  y1 : ℚ
  x2 : ℚ
  y2 : ℚ
  id : ℕ
deriving DecidableEq, Repr

/-- One entry of `Config.TRIPWIRE_LINE_OBJECTS`: a directed line segment and
its `alert_direction` string. -/
structure Tripwire where
  p1 : Pt
  p2 : Pt
  direction : String
deriving DecidableEq, Repr

/-- Bottom-center point `((x1 + x2) / 2, y2)` of a track box. -/
def bottom_center (t : Track) : Pt :=
  ⟨(t.x1 + t.x2) / 2, t.y2⟩

/-- The body of the per-tripwire check in `_handle_tripwire_logic`: the
movement segment intersects the tripwire, the side strictly changes with both
sides non-zero, and the crossing direction is admitted by the tripwire's
`alert_direction`. -/
def trip_alert_on (last cur : Pt) (tw : Tripwire) : Bool :=
  seg_intersects last cur tw.p1 tw.p2 &&
  (let side_before := get_point_side_of_line last tw.p1 tw.p2
   let side_after := get_point_side_of_line cur tw.p1 tw.p2
   (side_before ≠ 0 ∧ side_after ≠ 0 ∧ side_before ≠ side_after : Bool) &&
   (let crossed_to_right := (side_before = 1 ∧ side_after = -1 : Bool)
    let crossed_to_left := (side_before = -1 ∧ side_after = 1 : Bool)
    (tw.direction = "both" : Bool) ||
    (tw.direction = "cross_to_right" : Bool) && crossed_to_right ||
    (tw.direction = "cross_to_left" : Bool) && crossed_to_left))

/-- The inner `for tripwire_obj in Config.TRIPWIRE_LINE_OBJECTS` loop: scan
the tripwires in order and stop (`break`) at the first that alerts. -/
def find_tripwire_alert (last cur : Pt) : List Tripwire → Bool
  | [] => false
  | tw :: rest =>
    if trip_alert_on last cur tw then true else find_tripwire_alert last cur rest

/-- Whether the per-track tripwire check fires for track `t` given the
last-position map `m`: a previous position must exist, differ from the
current bottom-center, the tripwire list must be non-empty, and some tripwire
must alert. -/
def track_fires (tws : List Tripwire) (m : List (ℕ × Pt)) (t : Track) : Bool :=
  match alist_get m t.id with
  | none => false
  | some last =>
    (last ≠ bottom_center t : Bool) && !tws.isEmpty &&
      find_tripwire_alert last (bottom_center t) tws

/-- The `for track in current_tracks` loop of `_handle_tripwire_logic`:
threads the last-position map, the alert id set and the current event type
through the tracks in order. -/
def tripwire_track_loop (tws : List Tripwire) :
    List Track → List (ℕ × Pt) → Finset ℕ → Option String →
    List (ℕ × Pt) × Finset ℕ × Option String
  | [], m, s, ty => (m, s, ty)
  | t :: rest, m, s, ty =>
    if track_fires tws m t then
      tripwire_track_loop tws rest (alist_set m t.id (bottom_center t))
        (insert t.id s) (set_event_type ty "tripwire_alert")
    else
      tripwire_track_loop tws rest (alist_set m t.id (bottom_center t)) s ty

/-- Embedding of `EventProcessor._handle_tripwire_logic`: when tripwires are
enabled, run the track loop, then delete the ids that disappeared (keys of
the last-position map not among the current track ids) from both the
last-position map and the alert id set. -/
def handle_tripwire_logic (enabled : Bool) (tws : List Tripwire)
    (tracks : List Track) (m : List (ℕ × Pt)) (s : Finset ℕ)
    (ty : Option String) : List (ℕ × Pt) × Finset ℕ × Option String :=
  if !enabled then (m, s, ty)
  else
    let r := tripwire_track_loop tws tracks m s ty
    let current_ids := tracks.map Track.id
    let m2 := alist_restrict r.1 current_ids
    let s2 := r.2.1.filter (fun i => ¬ (i ∈ alist_keys r.1 ∧ i ∉ current_ids))
    (m2, s2, r.2.2)

/-! ## Dwell logic (`EventProcessor._handle_dwell_logic`) -/

/-- One entry of `dwell_time_trackers`: ROI entry time and alert latch. -/
structure DwellInfo where
  start_time : ℚ
  alerted : Bool
deriving DecidableEq, Repr

/-- The `for track_id, is_in_roi in track_roi_status.items()` loop. -/
def dwell_item_loop (threshold now : ℚ) :
    List (ℕ × Bool) → List (ℕ × DwellInfo) → Option String →
    List (ℕ × DwellInfo) × Option String
  | [], dw, ty => (dw, ty)
  | (tid, in_roi) :: rest, dw, ty =>
    if in_roi then
      match alist_get dw tid with
      | none =>
        dwell_item_loop threshold now rest
          (alist_set dw tid ⟨now, false⟩) ty
      | some info =>
        if !info.alerted ∧ now - info.start_time > threshold then
          dwell_item_loop threshold now rest
            (alist_set dw tid ⟨info.start_time, true⟩)
            (set_event_type ty "dwell_alert")
        else
          dwell_item_loop threshold now rest dw ty
    else
      dwell_item_loop threshold now rest (alist_del dw tid) ty

/-- Embedding of `EventProcessor._handle_dwell_logic`: when the ROI is
enabled, process each `(track_id, is_in_roi)` item, then drop the trackers
whose id is no longer among the status keys. -/
def handle_dwell_logic (roi_enabled : Bool) (threshold now : ℚ)
    (roi_status : List (ℕ × Bool)) (dw : List (ℕ × DwellInfo))
    (ty : Option String) : List (ℕ × DwellInfo) × Option String :=
  if !roi_enabled then (dw, ty)
  else
    let r := dwell_item_loop threshold now roi_status dw ty
    (alist_restrict r.1 (roi_status.map (fun e => e.1)), r.2)

/-! ## Event state machine (`EventProcessor`) -/

/-- The configuration slice the event processor reads from `Config`. -/
structure EPConfig where
  cooldown_period : ℚ
  post_event_seconds : ℚ
  max_event_duration : ℚ
  buffer_maxlen : ℕ
  target_fps : ℚ
  tripwires_enabled : Bool
  tripwires : List Tripwire
  roi_enabled : Bool
  dwell_threshold : ℚ
deriving Repr

/-- The `frame_data` record appended to the ring buffer or the event
recording; the pixel buffer is an opaque handle. -/
structure FrameData where
  frame : ℕ
  time : ℚ
  tracks : List Track
  roi_status : List (ℕ × Bool)
  alert_ids : Finset ℕ
deriving DecidableEq

/-- One dequeued queue item together with the per-frame analytics snapshot
(the item's own fields in FILE mode, the `SharedState` snapshot in RTSP
mode). -/
structure Obs where
  frame : ℕ
  time : ℚ
  person_detected : Bool
  tracks : List Track
  roi_status : List (ℕ × Bool)
  reid_features : List ℕ
deriving Repr

/-- A recording handed to `_start_encoding_thread`. -/
structure Handoff where
  segment : List FrameData
  fps : ℚ
  features : List ℕ
  event_type : Option String
deriving DecidableEq

/-- The mutable state of `EventProcessor` (plus the hand-off log and the
`shared_state['event_ended']` flag it writes). -/
structure EPState where
  is_capturing_event : Bool
  last_person_seen_time : ℚ
  last_event_ended_time : ℚ
  event_start_time : ℚ
  frame_buffer : List FrameData
  event_recording : List FrameData
  current_event_features : List ℕ
  current_event_type : Option String
  dwell_time_trackers : List (ℕ × DwellInfo)
  track_last_positions : List (ℕ × Pt)
  tripwire_alert_ids : Finset ℕ
  event_ended_flag : Bool
  handoffs : List Handoff
deriving DecidableEq

/-- The state right after `EventProcessor.__init__`. -/
def ep_init : EPState where
  is_capturing_event := false
  last_person_seen_time := 0
  last_event_ended_time := 0
  event_start_time := 0
  frame_buffer := []
  event_recording := []
  current_event_features := []
  current_event_type := none
  dwell_time_trackers := []
  track_last_positions := []
  tripwire_alert_ids := ∅
  event_ended_flag := false
  handoffs := []

/-- Append to a `collections.deque` with `maxlen`: keep the newest
`maxlen` elements. -/
def dequeAppend (maxlen : ℕ) (buf : List FrameData) (x : FrameData) :
    List FrameData :=
  let b := buf ++ [x]
  if maxlen < b.length then b.drop (b.length - maxlen) else b

/-- Python slice `l[-k:]`: the last `k` elements, except that `k = 0` yields
the whole list (`l[-0:]` is `l[0:]`). -/
def takeLastPy {α : Type} (k : ℕ) (l : List α) : List α :=
  if k = 0 then l else l.drop (l.length - k)

/-- Duration of a recording segment: last frame time minus first frame
time. -/
def seg_duration (segment : List FrameData) : ℚ :=
  (segment.getLast?.map FrameData.time).getD 0 -
    (segment.head?.map FrameData.time).getD 0

/-- Embedding of `EventProcessor._start_encoding_thread`: the observed fps is
`len / duration` when the duration is positive and `target_fps` otherwise,
and the current feature list and event type are captured. -/
def start_encoding_thread (cfg : EPConfig) (segment : List FrameData)
    (features : List ℕ) (ty : Option String) : Handoff where
  segment := segment
  fps :=
    if 0 < seg_duration segment then (segment.length : ℚ) / seg_duration segment
    else cfg.target_fps
  features := features
  event_type := ty

/-- The `frame_data` tuple built for the current frame (step 3 of the
per-frame loop), with the alert id set snapshot taken after the tripwire
update. -/
def obs_frame_data (o : Obs) (alert_ids : Finset ℕ) : FrameData where
  frame := o.frame
  time := o.time
  tracks := o.tracks
  roi_status := o.roi_status
  alert_ids := alert_ids

/-- The tripwire-logic result for one frame (step 2 of the per-frame
loop). -/
def tw_result (cfg : EPConfig) (st : EPState) (o : Obs) :
    List (ℕ × Pt) × Finset ℕ × Option String :=
  handle_tripwire_logic cfg.tripwires_enabled cfg.tripwires o.tracks
    st.track_last_positions st.tripwire_alert_ids st.current_event_type

/-- The dwell-logic result for one frame (step 3 of the per-frame loop),
after the tripwire update. -/
def dw_result (cfg : EPConfig) (st : EPState) (o : Obs) :
    List (ℕ × DwellInfo) × Option String :=
  handle_dwell_logic cfg.roi_enabled cfg.dwell_threshold o.time
    o.roi_status st.dwell_time_trackers (tw_result cfg st o).2.2

/-- The `frame_data` record built for the current frame. -/
def frame_datum (cfg : EPConfig) (st : EPState) (o : Obs) : FrameData :=
  obs_frame_data o (tw_result cfg st o).2.1

/-- Steps 1-5 of the per-frame loop body of `EventProcessor._target_func`:
tripwire update, dwell update, buffer routing (event recording plus feature
extension while capturing, ring buffer otherwise) and the last-person-seen
update. -/
def route_frame (cfg : EPConfig) (st : EPState) (o : Obs) : EPState :=
  let fd := frame_datum cfg st o
  let st1 : EPState :=
    if st.is_capturing_event then
      { st with
        track_last_positions := (tw_result cfg st o).1
        tripwire_alert_ids := (tw_result cfg st o).2.1
        dwell_time_trackers := (dw_result cfg st o).1
        current_event_type := (dw_result cfg st o).2
        event_recording := st.event_recording ++ [fd]
        current_event_features := st.current_event_features ++ o.reid_features }
    else
      { st with
        track_last_positions := (tw_result cfg st o).1
        tripwire_alert_ids := (tw_result cfg st o).2.1
        dwell_time_trackers := (dw_result cfg st o).1
        current_event_type := (dw_result cfg st o).2
        frame_buffer := dequeAppend cfg.buffer_maxlen st.frame_buffer fd }
  if o.person_detected then { st1 with last_person_seen_time := o.time } else st1

/-- Embedding of `EventProcessor._update_event_state`. -/
def update_event_state (cfg : EPConfig) (person_detected_now : Bool)
    (current_time : ℚ) (st : EPState) : EPState :=
  if ¬ st.is_capturing_event then
    if person_detected_now ∧
        current_time - st.last_event_ended_time > cfg.cooldown_period then
      let ty := set_event_type st.current_event_type "person_detected"
      if ty.isSome then
        { st with
          current_event_type := ty
          is_capturing_event := true
          event_recording := st.frame_buffer
          event_start_time :=
            ((st.frame_buffer.head?).map FrameData.time).getD current_time
          current_event_features := [] }
      else { st with current_event_type := ty }
    else st
  else
    let ends_absence : Bool :=
      !person_detected_now &&
        decide (current_time - st.last_person_seen_time > cfg.post_event_seconds)
    let ends_duration : Bool :=
      decide (current_time - st.event_start_time > cfg.max_event_duration)
    if ends_absence ∨ (¬ ends_absence ∧ ends_duration) then
      let completed := st.event_recording
      let handoffs2 :=
        if 1 < completed.length then
          st.handoffs ++ [start_encoding_thread cfg completed
            st.current_event_features st.current_event_type]
        else st.handoffs
      if ends_absence then
        { st with
          handoffs := handoffs2
          is_capturing_event := false
          event_recording := []
          current_event_features := []
          current_event_type := none
          last_event_ended_time := current_time
          event_ended_flag := true }
      else
        let newrec := takeLastPy cfg.buffer_maxlen completed
        { st with
          handoffs := handoffs2
          event_recording := newrec
          event_start_time :=
            ((newrec.head?).map FrameData.time).getD current_time
          current_event_features := [] }
    else st

/-- The per-frame loop body of `EventProcessor._target_func` for one dequeued
item: routing followed by the state transition. -/
def process_frame (cfg : EPConfig) (st : EPState) (o : Obs) : EPState :=
  update_event_state cfg o.person_detected o.time (route_frame cfg st o)

/-! ## Re-ID gallery pipeline (`services/video_recorder.py`,
`services/database_service.py`)

Feature vectors are opaque handles `ℕ`; `feat.tobytes()` equality is handle
equality, and `cosine_similarity` is an explicit parameter `sim`. -/

/-- Identity token of a person object during reconciliation: a person loaded
from the database (by position in the loaded gallery) or a nascent cluster
(by cluster index) added with `db.add`. -/
inductive PTarget where
  | db (i : ℕ)
  | fresh (j : ℕ)
deriving DecidableEq, Repr

/-- A row of the `persons` table together with its owned `person_features`
rows (feature handles) — `sighting_count` defaults to 1 for new rows. -/
structure GPerson where
  pid : ℕ
  features : List ℕ
  sighting : ℕ
deriving DecidableEq, Repr

/-- Dedup of `list({feat.tobytes(): feat for feat in lst}.values())`: keep
the first occurrence of each byte-identical feature, in order. -/
def dedup_first (l : List ℕ) : List ℕ :=
  l.foldl (fun acc f => if f ∈ acc then acc else acc ++ [f]) []

/-- The inner best-cluster scan of the intra-event clustering loop:
`highest_sim` starts at `-1.0` and is replaced on strict improvement, so the
first maximal cluster wins ties; returns the final `(highest_sim, index)`. -/
def best_cluster_scan (sim : ℕ → ℕ → ℚ) (f : ℕ) (clusters : List (List ℕ)) :
    ℚ × Option ℕ :=
  (clusters.enum.foldl
    (fun best c =>
      let rep := c.2.headD 0
      let s := sim f rep
      if s > best.1 then (s, some c.1) else best)
    ((-1 : ℚ), none))

/-- Append `f` to the cluster at index `i`. -/
def cluster_add (clusters : List (List ℕ)) (i : ℕ) (f : ℕ) : List (List ℕ) :=
  clusters.enum.map (fun c => if c.1 = i then c.2 ++ [f] else c.2)

/-- One iteration of the intra-event clustering loop: the feature joins the
best existing cluster when the best similarity reaches `intra_thr` and a best
cluster exists, and opens a new cluster otherwise. -/
def event_clusters_step (sim : ℕ → ℕ → ℚ) (intra_thr : ℚ)
    (clusters : List (List ℕ)) (f : ℕ) : List (List ℕ) :=
  let best := best_cluster_scan sim f clusters
  match best.2 with
  | some i =>
    if best.1 ≥ intra_thr then cluster_add clusters i f else clusters ++ [[f]]
  | none => clusters ++ [[f]]

/-- Intra-event clustering (`event_clusters` loop): each surviving feature
joins the best existing cluster when the best similarity against cluster
representatives (first-added features) reaches `intra_thr`, and opens a new
cluster otherwise. -/
def event_clusters (sim : ℕ → ℕ → ℚ) (intra_thr : ℚ) (uniq : List ℕ) :
    List (List ℕ) :=
  uniq.foldl (event_clusters_step sim intra_thr) []

/-- Modelled from the spec: `find_best_match_in_gallery` is imported from
`moshousapient.utils.reid_utils`, whose source file is absent from the
repository snapshot (only callers are present).  Per §4.5 of the spec it
computes the best match against every (Person, feature) pair — two nested
scans — takes the Person maximizing max-cosine-over-features, and yields that
Person when the maximum reaches the gallery threshold, nothing otherwise. -/
def find_best_match_in_gallery (sim : ℕ → ℕ → ℚ) (thr : ℚ) (rep : ℕ)
    (persons : List (PTarget × List ℕ)) : Option PTarget :=
  let best := persons.foldl
    (fun best p =>
      p.2.foldl
        (fun best f =>
          let s := sim rep f
          match best with
          | none => some (s, p.1)
          | some b => if s > b.1 then some (s, p.1) else best)
        best)
    (none : Option (ℚ × PTarget))
  match best with
  | some b => if b.1 ≥ thr then some b.2 else none
  | none => none

/-- The gallery-reconciliation loop (`final_person_map` construction): scan
the clusters in order against a static gallery that starts as the loaded
persons and grows with each cluster that failed to match (`db.add` plus
`static_persons_gallery.append`); record one target per cluster. -/
def reconcile_loop (sim : ℕ → ℕ → ℚ) (thr : ℚ) :
    List (ℕ × List ℕ) → List (PTarget × List ℕ) → List (ℕ × PTarget) →
    List (ℕ × PTarget)
  | [], _, acc => acc
  | (j, c) :: rest, staticGal, acc =>
    let rep := c.headD 0
    match find_best_match_in_gallery sim thr rep staticGal with
    | some t => reconcile_loop sim thr rest staticGal (acc ++ [(j, t)])
    | none =>
      reconcile_loop sim thr rest (staticGal ++ [(PTarget.fresh j, c)])
        (acc ++ [(j, PTarget.fresh j)])

/-- The cluster targets (`final_person_map`, in cluster-creation order) for a
gallery and a cluster list. -/
def reid_assignments (sim : ℕ → ℕ → ℚ) (thr : ℚ) (gallery : List GPerson)
    (clusters : List (List ℕ)) : List (ℕ × PTarget) :=
  reconcile_loop sim thr clusters.enum
    (gallery.enum.map (fun g => (PTarget.db g.1, g.2.features))) []

/-- Replace the person at position `i` of a loaded gallery. -/
def update_at (f : GPerson → GPerson) : List GPerson → ℕ → List GPerson
  | [], _ => []
  | p :: rest, 0 => f p :: rest
  | p :: rest, i + 1 => p :: update_at f rest i

/-- Append features to the nascent person of cluster `j`. -/
def fresh_append (l : List (ℕ × GPerson)) (j : ℕ) (cf : List ℕ) :
    List (ℕ × GPerson) :=
  l.map (fun e =>
    if e.1 = j then (e.1, { e.2 with features := e.2.features ++ cf }) else e)

/-- Working state of the merge loop: the loaded persons (updated in place)
and the nascent persons pending insertion, keyed by cluster index. -/
structure MergeState where
  dbp : List GPerson
  newp : List (ℕ × GPerson)
deriving DecidableEq, Repr

/-- Merge a matched cluster's feature rows onto a loaded person and bump its
sighting count. -/
def merge_into (cf : List ℕ) (p : GPerson) : GPerson :=
  { p with features := p.features ++ cf, sighting := p.sighting + 1 }

/-- One iteration of the merge loop for the item `(cluster index, final
person)`: when the final person is not the cluster itself, copy the cluster's
feature rows onto it; when the final person was among the initially loaded
persons, bump its `sighting_count` once for this cluster. -/
def merge_step (clusters : List (List ℕ)) (st : MergeState)
    (jt : ℕ × PTarget) : MergeState :=
  let cf := (clusters.get? jt.1).getD []
  match jt.2 with
  | PTarget.db i => { st with dbp := update_at (merge_into cf) st.dbp i }
  | PTarget.fresh j2 =>
    if j2 = jt.1 then st
    else { st with newp := fresh_append st.newp j2 cf }

/-- The merge loop over `final_person_map.items()`. -/
def merge_loop (clusters : List (List ℕ)) :
    MergeState → List (ℕ × PTarget) → MergeState
  | st, [] => st
  | st, jt :: rest => merge_loop clusters (merge_step clusters st jt) rest

/-- The nascent persons created by reconciliation (`Person()` objects added
with `db.add`), in creation order, with default `sighting_count = 1`. -/
def fresh_persons (clusters : List (List ℕ)) (assigns : List (ℕ × PTarget)) :
    List (ℕ × GPerson) :=
  assigns.filterMap (fun a =>
    if a.2 = PTarget.fresh a.1 then
      some (a.1, GPerson.mk 0 ((clusters.get? a.1).getD []) 1)
    else none)

/-- Next auto-increment primary key for the `persons` table. -/
def next_pid (gallery : List GPerson) : ℕ :=
  (gallery.map GPerson.pid).foldl max 0 + 1

/-- Primary keys a flush assigns to the nascent persons, in creation order. -/
def assign_pids (base : ℕ) (l : List (ℕ × GPerson)) : List (ℕ × GPerson) :=
  l.enum.map (fun e => (e.2.1, { e.2.2 with pid := base + e.1 }))

/-- Person id of a target after the flush. -/
def resolve_pid (dbp : List GPerson) (newp : List (ℕ × GPerson)) :
    PTarget → ℕ
  | PTarget.db i => ((dbp.get? i).map GPerson.pid).getD 0
  | PTarget.fresh j => ((alist_get newp j).map GPerson.pid).getD 0

/-- Embedding of `_process_reid_and_db` (`services/video_recorder.py`; the
`database_service.process_reid_and_identify_person` revision differs only in
using the literal `0.90` intra-event threshold).  `commit_ok` tells whether
the single covering transaction succeeds; on failure it is rolled back, the
gallery is unchanged and no person id is returned.  Returns the committed
gallery and the returned person id. -/
def process_reid_and_db (sim : ℕ → ℕ → ℚ) (intra_thr gal_thr : ℚ)
    (commit_ok : Bool) (gallery : List GPerson) (reid_features_list : List ℕ) :
    List GPerson × Option ℕ :=
  if reid_features_list = [] then (gallery, none)
  else
    let uniq := dedup_first reid_features_list
    let clusters := event_clusters sim intra_thr uniq
    let assigns := reid_assignments sim gal_thr gallery clusters
    let merged := merge_loop clusters
      ⟨gallery, fresh_persons clusters assigns⟩ assigns
    if clusters = [] then (gallery, none)
    else if commit_ok then
      let newWithPids := assign_pids (next_pid gallery) merged.newp
      let gallery2 := merged.dbp ++ newWithPids.map (fun e => e.2)
      let first_target := ((assigns.head?).map (fun a => a.2)).getD (PTarget.fresh 0)
      (gallery2, some (resolve_pid merged.dbp newWithPids first_target))
    else (gallery, none)

/-- The person id `_process_reid_and_db` returns on a successful commit: the
id, after the flush, of the final identity of the first intra-event
cluster. -/
def reid_main_pid (sim : ℕ → ℕ → ℚ) (intra_thr gal_thr : ℚ)
    (gallery : List GPerson) (reid_features_list : List ℕ) : ℕ :=
  let clusters := event_clusters sim intra_thr (dedup_first reid_features_list)
  let assigns := reid_assignments sim gal_thr gallery clusters
  let merged := merge_loop clusters
    ⟨gallery, fresh_persons clusters assigns⟩ assigns
  resolve_pid merged.dbp (assign_pids (next_pid gallery) merged.newp)
    (((assigns.head?).map (fun a => a.2)).getD (PTarget.fresh 0))

/-! ## Encoder stage (`services/video_recorder.py`, `encode_and_send_video`) -/

/-- Python `round` (half to even) on a rational. -/
def pyRound (q : ℚ) : ℤ :=
  let f := ⌊q⌋
  let r := q - (f : ℚ)
  if r < 1 / 2 then f
  else if (1 : ℚ) / 2 < r then f + 1
  else if f % 2 = 0 then f else f + 1

/-- Python slice `l[::step]` for a positive step. -/
def slice_step {α : Type} (l : List α) (step : ℕ) : List α :=
  (l.enum.filter (fun e => e.1 % step = 0)).map (fun e => e.2)

/-- The externally visible outcome of one `encode_and_send_video` call: the
committed gallery, the appended `events` rows `(event_type, person_id)`, the
number of frames written to the encoder, and whether a notification was
scheduled. -/
structure EncodeOutcome where
  gallery : List GPerson
  events : List (String × Option ℕ)
  frames_written : ℕ
  notified : Bool
  reid_result : Option ℕ
deriving DecidableEq, Repr

/-- Embedding of `encode_and_send_video` (`services/video_recorder.py`).
The encoder subprocess is abstracted by its exit code `returncode`; the
Re-ID transaction and the separate event insertion commit by the Boolean
success parameters.  `_process_reid_and_db` runs before the return-code
check; only the event insertion and the notification are guarded by it. -/
def encode_and_send_video (sim : ℕ → ℕ → ℚ) (thr : ℚ)
    (video_fps_mode : String) (target_fps : ℚ) (returncode : ℤ)
    (reid_commit_ok event_commit_ok has_notifier : Bool)
    (gallery : List GPerson) (frame_data_list : List FrameData)
    (actual_fps : ℚ) (reid_features_list : List ℕ) (event_type : String) :
    EncodeOutcome :=
  if frame_data_list = [] ∨ actual_fps ≤ 0 then
    ⟨gallery, [], 0, false, none⟩
  else
    let sampled :=
      if video_fps_mode = "TARGET" ∧ actual_fps > target_fps ∧ target_fps > 0 then
        slice_step frame_data_list (pyRound (actual_fps / target_fps)).toNat
      else frame_data_list
    let reid := process_reid_and_db sim thr thr reid_commit_ok gallery
      reid_features_list
    if returncode ≠ 0 then
      ⟨reid.1, [], sampled.length, false, reid.2⟩
    else
      ⟨reid.1,
        (if event_commit_ok then [(event_type, reid.2)] else []),
        sampled.length, has_notifier, reid.2⟩

/-! ## Inference publication (`processors/inference_processor.py`) -/

/-- The derived analytics of one inference pass. -/
structure InferOut where
  tracks : List Track
  roi_status : List (ℕ × Bool)
  reid_features_map : List (ℕ × ℕ)
deriving DecidableEq, Repr

/-- The `SharedState` entries written by the inference stage, instrumented
with the index of the frame each published entry was computed from (the
`src` fields are specification ghosts, not source state). -/
structure Shared where
  person_detected : Bool
  tracked_objects : List Track
  reid_features_map : List (ℕ × ℕ)
  track_roi_status : List (ℕ × Bool)
  tracks_src : ℕ
  reid_src : ℕ
  roi_src : ℕ
deriving DecidableEq, Repr

/-- Embedding of the `with self.state_lock` publish block of
`InferenceProcessor._target_func` for the frame of index `k`:
`person_detected`, `tracked_objects` and `track_roi_status` are overwritten
every frame, while `reid_features_map` is written only when the new map is
non-empty. -/
def publish_shared (st : Shared) (k : ℕ) (o : InferOut) : Shared where
  person_detected := 0 < o.tracks.length
  tracked_objects := o.tracks
  reid_features_map :=
    if o.reid_features_map.isEmpty then st.reid_features_map
    else o.reid_features_map
  track_roi_status := o.roi_status
  tracks_src := k
  reid_src := if o.reid_features_map.isEmpty then st.reid_src else k
  roi_src := k

/-! ## Concrete instances used by witnesses and counterexamples -/

/-- A trivial similarity function (all pairs fully dissimilar). -/
def zero_sim : ℕ → ℕ → ℚ := fun _ _ => 0

/-- Two bare frames one second apart. -/
def fdA : FrameData := ⟨0, 0, [], [], ∅⟩

/-- Second bare frame. -/
def fdB : FrameData := ⟨1, 1, [], [], ∅⟩

/-- A small configuration: cooldown 5 s, post-event 5 s, max duration 20 s,
ring capacity 10, target 1 fps, no behavior rules. -/
def cfgA : EPConfig := ⟨5, 5, 20, 10, 1, false, [], false, 3⟩

/-- A person-bearing frame at `t = 0`. -/
def obsA0 : Obs := ⟨0, 0, true, [], [], []⟩

/-- A person-bearing frame at `t = 100`. -/
def obsA1 : Obs := ⟨1, 100, true, [], [], []⟩

/-- A capturing state whose event started at `t = 0` and was last elevated to
`tripwire_alert`, with two recorded frames. -/
def stSegA : EPState :=
  { ep_init with
    is_capturing_event := true
    event_start_time := 0
    event_recording := [⟨0, 0, [], [], ∅⟩, ⟨1, 1, [], [], ∅⟩]
    current_event_type := some "tripwire_alert"
    last_person_seen_time := 49 }

/-- A person-bearing frame at `t = 50` with no tracks and no triggers. -/
def obsSegA : Obs := ⟨2, 50, true, [], [], []⟩

/-- A capturing state holding a single frame at `t = 5` whose person
disappeared long ago. -/
def stDurA : EPState :=
  { ep_init with
    is_capturing_event := true
    event_start_time := 5
    event_recording := [⟨0, 5, [], [], ∅⟩]
    last_person_seen_time := -1 }

/-- A person-free frame also timestamped `t = 5`. -/
def obsDurA : Obs := ⟨1, 5, false, [], [], []⟩

/-- The zero-duration two-frame hand-off produced from `stDurA` and
`obsDurA`. -/
def hDurA : Handoff := ⟨[⟨0, 5, [], [], ∅⟩, ⟨1, 5, [], [], ∅⟩], 1, [], none⟩

/-- Similarity matrix for the double-increment scenario: event features 2 and
3 are mutually dissimilar, but feature 2 matches gallery feature 0 and
feature 3 matches gallery feature 1 (both at 0.97). -/
def simC8 (a b : ℕ) : ℚ :=
  if (a = 2 ∧ b = 0) ∨ (a = 0 ∧ b = 2) then 97 / 100
  else if (a = 3 ∧ b = 1) ∨ (a = 1 ∧ b = 3) then 97 / 100
  else 0

/-- A gallery with one person owning features 0 and 1, seen once. -/
def galC8 : List GPerson := [⟨1, [0, 1], 1⟩]

/-- A vertical tripwire segment admitting both directions. -/
def twA : Tripwire := ⟨⟨5, 0⟩, ⟨5, 10⟩, "both"⟩

/-- A track with id 7 whose bottom-center point is `(7, 5)`. -/
def trA : Track := ⟨5, 0, 9, 5, 7⟩

/-- A last-position map placing track 7 at `(4, 5)`, left of `twA`. -/
def posA : List (ℕ × Pt) := [(7, ⟨4, 5⟩)]

/-- An empty shared-state block. -/
def sharedA : Shared := ⟨false, [], [], [], 0, 0, 0⟩

/-- An inference output for a frame with one track and one extracted Re-ID
feature. -/
def infA : InferOut := ⟨[⟨0, 0, 1, 1, 1⟩], [], [(1, 10)]⟩

/-- An inference output for a frame with one track and no extracted Re-ID
features (an off-interval frame). -/
def infB : InferOut := ⟨[⟨0, 0, 1, 1, 1⟩], [], []⟩

/-! ## Helper lemmas -/

/-- Elevating to `person_detected` always leaves a non-`None` type. -/
theorem set_person_isSome (cur : Option String) :
    (set_event_type cur "person_detected").isSome = true := by
  cases cur with
  | none => rfl
  | some s =>
    unfold set_event_type
    split
    · rfl
    · rfl

/-- Single elevation never lowers the type priority. -/
theorem type_priority_le_set (cur : Option String) (s : String) :
    type_priority cur ≤ type_priority (set_event_type cur s) := by
  unfold set_event_type
  split
  · exact le_of_lt (by assumption)
  · exact le_refl _

/-- Folding elevations never lowers the type priority. -/
theorem type_priority_le_foldl (l : List String) :
    ∀ cur : Option String,
      type_priority cur ≤ type_priority (l.foldl set_event_type cur) := by
  induction l with
  | nil => intro cur; exact le_refl _
  | cons a t ih =>
    intro cur
    exact le_trans (type_priority_le_set cur a) (ih (set_event_type cur a))

/-- `route_frame` in closed form. -/
theorem route_frame_eq (cfg : EPConfig) (st : EPState) (o : Obs) :
    route_frame cfg st o =
      { st with
        track_last_positions := (tw_result cfg st o).1
        tripwire_alert_ids := (tw_result cfg st o).2.1
        dwell_time_trackers := (dw_result cfg st o).1
        current_event_type := (dw_result cfg st o).2
        event_recording :=
          if st.is_capturing_event then
            st.event_recording ++ [frame_datum cfg st o]
          else st.event_recording
        current_event_features :=
          if st.is_capturing_event then
            st.current_event_features ++ o.reid_features
          else st.current_event_features
        frame_buffer :=
          if st.is_capturing_event then st.frame_buffer
          else dequeAppend cfg.buffer_maxlen st.frame_buffer (frame_datum cfg st o)
        last_person_seen_time :=
          if o.person_detected then o.time else st.last_person_seen_time } := by
  unfold route_frame
  by_cases hc : st.is_capturing_event <;> by_cases hp : o.person_detected <;>
    simp [hc, hp]

/-- `update_event_state` while idle, when the start condition fails. -/
theorem update_idle_no_start (cfg : EPConfig) (p : Bool) (now : ℚ)
    (st : EPState) (h : st.is_capturing_event = false)
    (hc : ¬ (p = true ∧ cfg.cooldown_period < now - st.last_event_ended_time)) :
    update_event_state cfg p now st = st := by
  unfold update_event_state
  rw [if_pos (by simp [h])]
  rw [if_neg (by simpa using hc)]

/-- `update_event_state` while idle, when the start condition holds. -/
theorem update_idle_start (cfg : EPConfig) (p : Bool) (now : ℚ)
    (st : EPState) (h : st.is_capturing_event = false) (hp : p = true)
    (hc : cfg.cooldown_period < now - st.last_event_ended_time) :
    update_event_state cfg p now st =
      { st with
        current_event_type := set_event_type st.current_event_type "person_detected"
        is_capturing_event := true
        event_recording := st.frame_buffer
        event_start_time := ((st.frame_buffer.head?).map FrameData.time).getD now
        current_event_features := [] } := by
  unfold update_event_state
  rw [if_pos (by simp [h])]
  rw [if_pos (by exact ⟨hp, by simpa using hc⟩)]
  rw [if_pos (set_person_isSome st.current_event_type)]

/-- The person-absence termination condition. -/
def endsAbs (cfg : EPConfig) (p : Bool) (now : ℚ) (st : EPState) : Prop :=
  p = false ∧ cfg.post_event_seconds < now - st.last_person_seen_time

/-- The duration termination condition. -/
def endsDur (cfg : EPConfig) (now : ℚ) (st : EPState) : Prop :=
  cfg.max_event_duration < now - st.event_start_time

/-- `update_event_state` while capturing, when no terminator holds. -/
theorem update_cap_continue (cfg : EPConfig) (p : Bool) (now : ℚ)
    (st : EPState) (h : st.is_capturing_event = true)
    (h1 : ¬ endsAbs cfg p now st) (h2 : ¬ endsDur cfg now st) :
    update_event_state cfg p now st = st := by
  unfold update_event_state
  rw [if_neg (by simp [h])]
  rw [if_neg ?_]
  unfold endsAbs at h1
  unfold endsDur at h2
  cases p <;> simp_all

/-- `update_event_state` while capturing, person-absence termination. -/
theorem update_cap_end_absence (cfg : EPConfig) (p : Bool) (now : ℚ)
    (st : EPState) (h : st.is_capturing_event = true)
    (h1 : endsAbs cfg p now st) :
    update_event_state cfg p now st =
      { st with
        handoffs :=
          if 1 < st.event_recording.length then
            st.handoffs ++ [start_encoding_thread cfg st.event_recording
              st.current_event_features st.current_event_type]
          else st.handoffs
        is_capturing_event := false
        event_recording := []
        current_event_features := []
        current_event_type := none
        last_event_ended_time := now
        event_ended_flag := true } := by
  unfold update_event_state
  rw [if_neg (by simp [h])]
  unfold endsAbs at h1
  rw [if_pos (by simp [h1.1, h1.2])]
  rw [if_pos (by simp [h1.1, h1.2])]

/-- `update_event_state` while capturing, duration termination
(segmentation). -/
theorem update_cap_segmentation (cfg : EPConfig) (p : Bool) (now : ℚ)
    (st : EPState) (h : st.is_capturing_event = true)
    (h1 : ¬ endsAbs cfg p now st) (h2 : endsDur cfg now st) :
    update_event_state cfg p now st =
      { st with
        handoffs :=
          if 1 < st.event_recording.length then
            st.handoffs ++ [start_encoding_thread cfg st.event_recording
              st.current_event_features st.current_event_type]
          else st.handoffs
        event_recording := takeLastPy cfg.buffer_maxlen st.event_recording
        event_start_time :=
          (((takeLastPy cfg.buffer_maxlen st.event_recording).head?).map
            FrameData.time).getD now
        current_event_features := [] } := by
  unfold update_event_state
  rw [if_neg (by simp [h])]
  unfold endsAbs at h1
  unfold endsDur at h2
  have habs : (!p && decide (now - st.last_person_seen_time > cfg.post_event_seconds)) = false := by
    cases p <;> simp_all
  rw [if_pos ?_]
  · rw [if_neg (by simp [habs])]
  · rw [habs]
    simp [h2]

/-- Priority of `person_detected`. -/
theorem pm_person : priority_map "person_detected" = 0 := by decide

/-- Priority of `dwell_alert`. -/
theorem pm_dwell : priority_map "dwell_alert" = 1 := by decide

/-- Priority of `tripwire_alert`. -/
theorem pm_trip : priority_map "tripwire_alert" = 2 := by decide

/-! ## Claim C2 -/

/-- C2 (amended): while not capturing, the machine transitions to Capturing
exactly when a person is present and the cooldown has elapsed — a fired
trigger does not bypass the cooldown; on the transition the recording is
seeded from the ring buffer (current frame included), the event start time is
the first seeded frame's timestamp (the current time only when the seed is
empty), the feature list is cleared, and the tripwire alert id set keeps the
value left by this frame's tripwire update rather than being cleared. -/
theorem C2_idle_transition (cfg : EPConfig) (st : EPState) (o : Obs)
    (h : st.is_capturing_event = false) :
    ((process_frame cfg st o).is_capturing_event = true ↔
      o.person_detected = true ∧
        cfg.cooldown_period < o.time - st.last_event_ended_time) ∧
    ((process_frame cfg st o).is_capturing_event = true →
      (process_frame cfg st o).event_recording =
        dequeAppend cfg.buffer_maxlen st.frame_buffer (frame_datum cfg st o) ∧
      (process_frame cfg st o).event_start_time =
        (((dequeAppend cfg.buffer_maxlen st.frame_buffer
          (frame_datum cfg st o)).head?).map FrameData.time).getD o.time ∧
      (process_frame cfg st o).current_event_features = [] ∧
      (process_frame cfg st o).tripwire_alert_ids = (tw_result cfg st o).2.1) := by
  have hrc : (route_frame cfg st o).is_capturing_event = false := by
    rw [route_frame_eq]; exact h
  have hre : (route_frame cfg st o).last_event_ended_time =
      st.last_event_ended_time := by
    rw [route_frame_eq]
  by_cases hc : o.person_detected = true ∧
      cfg.cooldown_period < o.time - st.last_event_ended_time
  · have hst : process_frame cfg st o =
        { route_frame cfg st o with
          current_event_type :=
            set_event_type (route_frame cfg st o).current_event_type
              "person_detected"
          is_capturing_event := true
          event_recording := (route_frame cfg st o).frame_buffer
          event_start_time :=
            (((route_frame cfg st o).frame_buffer.head?).map
              FrameData.time).getD o.time
          current_event_features := [] } := by
      unfold process_frame
      exact update_idle_start cfg o.person_detected o.time _ hrc hc.1
        (hre ▸ hc.2)
    have hbuf : (route_frame cfg st o).frame_buffer =
        dequeAppend cfg.buffer_maxlen st.frame_buffer (frame_datum cfg st o) := by
      rw [route_frame_eq]; simp [h]
    refine ⟨⟨fun _ => hc, fun _ => by rw [hst]⟩, fun _ => ⟨?_, ?_, ?_, ?_⟩⟩
    · rw [hst]; exact hbuf
    · rw [hst]
      show (((route_frame cfg st o).frame_buffer.head?).map
        FrameData.time).getD o.time = _
      rw [hbuf]
    · rw [hst]
    · rw [hst]
      show (route_frame cfg st o).tripwire_alert_ids = _
      rw [route_frame_eq]
  · have hst : process_frame cfg st o = route_frame cfg st o := by
      unfold process_frame
      exact update_idle_no_start cfg o.person_detected o.time _ hrc
        (by rw [hre]; exact hc)
    constructor
    · rw [hst, hrc]
      exact iff_of_false (by simp) hc
    · intro hcap
      rw [hst, hrc] at hcap
      simp at hcap

/-- C2 counterexample: on a concrete run of two frames from the initial
state, a transition to Capturing happens whose event start time is the
timestamp of the oldest buffered frame, not the current time, contradicting
the claim that `event_start_time` is set to now. -/
theorem C2_counterexample :
    (process_frame cfgA (process_frame cfgA ep_init obsA0) obsA1).is_capturing_event
      = true ∧
    (process_frame cfgA (process_frame cfgA ep_init obsA0) obsA1).event_start_time
      ≠ obsA1.time := by
  norm_num [process_frame, route_frame, update_event_state, ep_init, cfgA,
    obsA0, obsA1, handle_tripwire_logic, handle_dwell_logic, tw_result,
    dw_result, frame_datum, obs_frame_data, dequeAppend, set_event_type,
    type_priority, pm_person, pm_dwell, pm_trip, takeLastPy,
    start_encoding_thread, seg_duration]

/-- C2 witness: a concrete transition with the cooldown elapsed starts
capture and clears the feature list. -/
theorem C2_witness :
    (process_frame cfgA ep_init obsA1).is_capturing_event = true ∧
    (process_frame cfgA ep_init obsA1).current_event_features = [] := by
  have h := C2_idle_transition cfgA ep_init obsA1 rfl
  have hcap := h.1.mpr ⟨rfl, by norm_num [cfgA, obsA1, ep_init]⟩
  exact ⟨hcap, (h.2 hcap).2.2.1⟩

/-! ## Claim C3 -/

/-- C3 (amended): when a capturing event terminates by duration (and not by
person absence), a new Capturing event starts immediately, seeded with the
tail of the previous recording of length equal to the ring buffer capacity;
its event start time is the first frame time of that seed (the current time
only when the seed is empty), the feature list is cleared, and the event type
is carried over from the frame's trigger handling rather than being reset;
the cooldown clock and the event-ended flag are untouched, and the completed
segment is handed off when it has more than one frame. -/
theorem C3_segmentation (cfg : EPConfig) (st : EPState) (o : Obs)
    (h : st.is_capturing_event = true)
    (habs : o.person_detected = true ∨
      ¬ cfg.post_event_seconds < o.time - st.last_person_seen_time)
    (hdur : cfg.max_event_duration < o.time - st.event_start_time) :
    (process_frame cfg st o).is_capturing_event = true ∧
    (process_frame cfg st o).event_recording =
      takeLastPy cfg.buffer_maxlen
        (st.event_recording ++ [frame_datum cfg st o]) ∧
    (process_frame cfg st o).event_start_time =
      (((takeLastPy cfg.buffer_maxlen
        (st.event_recording ++ [frame_datum cfg st o])).head?).map
          FrameData.time).getD o.time ∧
    (process_frame cfg st o).current_event_features = [] ∧
    (process_frame cfg st o).current_event_type = (dw_result cfg st o).2 ∧
    (process_frame cfg st o).last_event_ended_time =
      st.last_event_ended_time ∧
    (process_frame cfg st o).event_ended_flag = st.event_ended_flag ∧
    (process_frame cfg st o).handoffs =
      (if 1 < (st.event_recording ++ [frame_datum cfg st o]).length then
        st.handoffs ++ [start_encoding_thread cfg
          (st.event_recording ++ [frame_datum cfg st o])
          (st.current_event_features ++ o.reid_features) (dw_result cfg st o).2]
      else st.handoffs) := by
  have hrc : (route_frame cfg st o).is_capturing_event = true := by
    rw [route_frame_eq]; exact h
  have hrec : (route_frame cfg st o).event_recording =
      st.event_recording ++ [frame_datum cfg st o] := by
    rw [route_frame_eq]; simp [h]
  have hfeat : (route_frame cfg st o).current_event_features =
      st.current_event_features ++ o.reid_features := by
    rw [route_frame_eq]; simp [h]
  have habs2 : ¬ endsAbs cfg o.person_detected o.time (route_frame cfg st o) := by
    unfold endsAbs
    rcases habs with hp | hna
    · intro hx
      rw [hp] at hx
      simp at hx
    · intro hx
      apply hna
      have hl : (route_frame cfg st o).last_person_seen_time =
          st.last_person_seen_time := by
        rw [route_frame_eq]
        simp [hx.1]
      rw [hl] at hx
      exact hx.2
  have hdur2 : endsDur cfg o.time (route_frame cfg st o) := by
    unfold endsDur
    have hs : (route_frame cfg st o).event_start_time = st.event_start_time := by
      rw [route_frame_eq]
    rw [hs]
    exact hdur
  have hst : process_frame cfg st o =
      { route_frame cfg st o with
        handoffs :=
          if 1 < (route_frame cfg st o).event_recording.length then
            (route_frame cfg st o).handoffs ++
              [start_encoding_thread cfg (route_frame cfg st o).event_recording
                (route_frame cfg st o).current_event_features
                (route_frame cfg st o).current_event_type]
          else (route_frame cfg st o).handoffs
        event_recording :=
          takeLastPy cfg.buffer_maxlen (route_frame cfg st o).event_recording
        event_start_time :=
          (((takeLastPy cfg.buffer_maxlen
            (route_frame cfg st o).event_recording).head?).map
              FrameData.time).getD o.time
        current_event_features := [] } := by
    unfold process_frame
    exact update_cap_segmentation cfg o.person_detected o.time _ hrc habs2 hdur2
  have hty : (route_frame cfg st o).current_event_type = (dw_result cfg st o).2 := by
    rw [route_frame_eq]
  have hhand : (route_frame cfg st o).handoffs = st.handoffs := by
    rw [route_frame_eq]
  have hend : (route_frame cfg st o).last_event_ended_time =
      st.last_event_ended_time := by
    rw [route_frame_eq]
  have hflag : (route_frame cfg st o).event_ended_flag = st.event_ended_flag := by
    rw [route_frame_eq]
  refine ⟨?_, ?_, ?_, ?_, ?_, ?_, ?_, ?_⟩
  · rw [hst]; exact hrc
  · rw [hst]
    show takeLastPy cfg.buffer_maxlen (route_frame cfg st o).event_recording = _
    rw [hrec]
  · rw [hst]
    show (((takeLastPy cfg.buffer_maxlen
      (route_frame cfg st o).event_recording).head?).map FrameData.time).getD
        o.time = _
    rw [hrec]
  · rw [hst]
  · rw [hst]
    show (route_frame cfg st o).current_event_type = _
    exact hty
  · rw [hst]
    show (route_frame cfg st o).last_event_ended_time = _
    exact hend
  · rw [hst]
    show (route_frame cfg st o).event_ended_flag = _
    exact hflag
  · rw [hst]
    show (if 1 < (route_frame cfg st o).event_recording.length then
        (route_frame cfg st o).handoffs ++
          [start_encoding_thread cfg (route_frame cfg st o).event_recording
            (route_frame cfg st o).current_event_features
            (route_frame cfg st o).current_event_type]
      else (route_frame cfg st o).handoffs) = _
    rw [hrec, hfeat, hty, hhand]

/-- C3 counterexample: on a concrete duration-terminated segmentation with no
track present (hence no currently active trigger), the new event keeps start
time 0 (not the current time 50) and keeps the previous `tripwire_alert`
type, contradicting the claim that start time is now and that the type is
reset to currently active triggers. -/
theorem C3_counterexample :
    (process_frame cfgA stSegA obsSegA).is_capturing_event = true ∧
    (process_frame cfgA stSegA obsSegA).event_start_time ≠ obsSegA.time ∧
    (process_frame cfgA stSegA obsSegA).current_event_type =
      some "tripwire_alert" ∧
    obsSegA.tracks = [] := by
  norm_num [process_frame, route_frame, update_event_state, ep_init, cfgA,
    stSegA, obsSegA, handle_tripwire_logic, handle_dwell_logic, tw_result,
    dw_result, frame_datum, obs_frame_data, dequeAppend, set_event_type,
    type_priority, pm_person, pm_dwell, pm_trip, takeLastPy,
    start_encoding_thread, seg_duration]

/-- C3 witness: the segmentation theorem applied to the concrete duration
overrun. -/
theorem C3_witness :
    (process_frame cfgA stSegA obsSegA).current_event_features = [] ∧
    (process_frame cfgA stSegA obsSegA).is_capturing_event = true := by
  have h := C3_segmentation cfgA stSegA obsSegA rfl (Or.inl rfl)
    (by norm_num [cfgA, stSegA, obsSegA, ep_init])
  exact ⟨h.2.2.2.1, h.1⟩

/-! ## Claim C10 -/

/-- C10: the Capturing-to-Idle transition clears the event recording, the
feature list and the event type while leaving the ring buffer unchanged (the
buffer is untouched throughout capture), and the next Idle-to-Capturing
transition seeds its recording from the retained buffer contents, taking its
event start time from the oldest retained frame. -/
theorem C10_ring_buffer_retention (cfg : EPConfig) (st : EPState) (o : Obs) :
    (st.is_capturing_event = true →
      (process_frame cfg st o).frame_buffer = st.frame_buffer) ∧
    (st.is_capturing_event = true →
      endsAbs cfg o.person_detected o.time (route_frame cfg st o) →
      (process_frame cfg st o).event_recording = [] ∧
      (process_frame cfg st o).current_event_features = [] ∧
      (process_frame cfg st o).current_event_type = none ∧
      (process_frame cfg st o).frame_buffer = st.frame_buffer) ∧
    (st.is_capturing_event = false →
      (process_frame cfg st o).is_capturing_event = true →
      (process_frame cfg st o).event_recording =
        dequeAppend cfg.buffer_maxlen st.frame_buffer (frame_datum cfg st o) ∧
      (process_frame cfg st o).event_start_time =
        (((dequeAppend cfg.buffer_maxlen st.frame_buffer
          (frame_datum cfg st o)).head?).map FrameData.time).getD o.time) := by
  have hbufcap : st.is_capturing_event = true →
      (route_frame cfg st o).frame_buffer = st.frame_buffer := by
    intro h
    rw [route_frame_eq]
    simp [h]
  refine ⟨?_, ?_, ?_⟩
  · intro h
    have hrc : (route_frame cfg st o).is_capturing_event = true := by
      rw [route_frame_eq]; exact h
    unfold process_frame
    by_cases habs : endsAbs cfg o.person_detected o.time (route_frame cfg st o)
    · rw [update_cap_end_absence cfg o.person_detected o.time _ hrc habs]
      exact hbufcap h
    · by_cases hdur : endsDur cfg o.time (route_frame cfg st o)
      · rw [update_cap_segmentation cfg o.person_detected o.time _ hrc habs hdur]
        exact hbufcap h
      · rw [update_cap_continue cfg o.person_detected o.time _ hrc habs hdur]
        exact hbufcap h
  · intro h habs
    have hrc : (route_frame cfg st o).is_capturing_event = true := by
      rw [route_frame_eq]; exact h
    have hst : process_frame cfg st o =
        { route_frame cfg st o with
          handoffs :=
            if 1 < (route_frame cfg st o).event_recording.length then
              (route_frame cfg st o).handoffs ++
                [start_encoding_thread cfg
                  (route_frame cfg st o).event_recording
                  (route_frame cfg st o).current_event_features
                  (route_frame cfg st o).current_event_type]
            else (route_frame cfg st o).handoffs
          is_capturing_event := false
          event_recording := []
          current_event_features := []
          current_event_type := none
          last_event_ended_time := o.time
          event_ended_flag := true } := by
      unfold process_frame
      exact update_cap_end_absence cfg o.person_detected o.time _ hrc habs
    refine ⟨by rw [hst], by rw [hst], by rw [hst], ?_⟩
    rw [hst]
    show (route_frame cfg st o).frame_buffer = st.frame_buffer
    exact hbufcap h
  · intro h hcap
    have hrc : (route_frame cfg st o).is_capturing_event = false := by
      rw [route_frame_eq]; exact h
    have hbuf : (route_frame cfg st o).frame_buffer =
        dequeAppend cfg.buffer_maxlen st.frame_buffer (frame_datum cfg st o) := by
      rw [route_frame_eq]; simp [h]
    by_cases hc : o.person_detected = true ∧
        cfg.cooldown_period <
          o.time - (route_frame cfg st o).last_event_ended_time
    · have hst : process_frame cfg st o =
          { route_frame cfg st o with
            current_event_type :=
              set_event_type (route_frame cfg st o).current_event_type
                "person_detected"
            is_capturing_event := true
            event_recording := (route_frame cfg st o).frame_buffer
            event_start_time :=
              (((route_frame cfg st o).frame_buffer.head?).map
                FrameData.time).getD o.time
            current_event_features := [] } := by
        unfold process_frame
        exact update_idle_start cfg o.person_detected o.time _ hrc hc.1 hc.2
      constructor
      · rw [hst]; exact hbuf
      · rw [hst]
        show (((route_frame cfg st o).frame_buffer.head?).map
          FrameData.time).getD o.time = _
        rw [hbuf]
    · exfalso
      have hst : process_frame cfg st o = route_frame cfg st o := by
        unfold process_frame
        exact update_idle_no_start cfg o.person_detected o.time _ hrc hc
      rw [hst, hrc] at hcap
      simp at hcap

/-- C10 witness: on a concrete person-absence termination the ring buffer is
retained and the recording is cleared. -/
theorem C10_witness :
    (process_frame cfgA stDurA obsDurA).frame_buffer = stDurA.frame_buffer ∧
    (process_frame cfgA stDurA obsDurA).event_recording = [] := by
  have h := C10_ring_buffer_retention cfgA stDurA obsDurA
  refine ⟨h.1 rfl, (h.2.1 rfl ⟨rfl, ?_⟩).1⟩
  rw [route_frame_eq]
  norm_num [cfgA, stDurA, obsDurA, ep_init]

/-! ## Claim C6 -/

/-- C6 (amended): every recording handed off to the encoder stage has at
least 2 frames — but zero-duration recordings are not filtered out: when the
duration is not strictly positive, the recording is still handed off and the
fps falls back to the configured target fps. -/
theorem C6_handoff_frames (cfg : EPConfig) (st : EPState) (o : Obs) :
    ∀ hh ∈ (process_frame cfg st o).handoffs,
      hh ∈ st.handoffs ∨
        (2 ≤ hh.segment.length ∧
          hh.fps = (if 0 < seg_duration hh.segment then
            ((hh.segment.length : ℚ)) / seg_duration hh.segment
          else cfg.target_fps)) := by
  intro hh hmem
  have hhand : (route_frame cfg st o).handoffs = st.handoffs := by
    rw [route_frame_eq]
  unfold process_frame at hmem
  cases hcap : st.is_capturing_event with
  | false =>
    have hrc : (route_frame cfg st o).is_capturing_event = false := by
      rw [route_frame_eq]; exact hcap
    by_cases hc : o.person_detected = true ∧
        cfg.cooldown_period <
          o.time - (route_frame cfg st o).last_event_ended_time
    · rw [update_idle_start cfg o.person_detected o.time _ hrc hc.1 hc.2]
        at hmem
      left
      rw [← hhand]
      exact hmem
    · rw [update_idle_no_start cfg o.person_detected o.time _ hrc hc] at hmem
      left
      rw [← hhand]
      exact hmem
  | true =>
    have hrc : (route_frame cfg st o).is_capturing_event = true := by
      rw [route_frame_eq]; exact hcap
    have hfin : ∀ r : EPState, hh ∈ (if 1 < r.event_recording.length then
        r.handoffs ++ [start_encoding_thread cfg r.event_recording
          r.current_event_features r.current_event_type]
        else r.handoffs) → r.handoffs = st.handoffs →
        hh ∈ st.handoffs ∨
          (2 ≤ hh.segment.length ∧
            hh.fps = (if 0 < seg_duration hh.segment then
              ((hh.segment.length : ℚ)) / seg_duration hh.segment
            else cfg.target_fps)) := by
      intro r hm hr
      by_cases hlen : 1 < r.event_recording.length
      · rw [if_pos hlen, List.mem_append] at hm
        rcases hm with hm | hm
        · left; rw [← hr]; exact hm
        · right
          have hx : hh = start_encoding_thread cfg r.event_recording
              r.current_event_features r.current_event_type := by
            simpa using hm
          subst hx
          exact ⟨hlen, rfl⟩
      · rw [if_neg hlen] at hm
        left; rw [← hr]; exact hm
    by_cases habs : endsAbs cfg o.person_detected o.time (route_frame cfg st o)
    · rw [update_cap_end_absence cfg o.person_detected o.time _ hrc habs]
        at hmem
      exact hfin _ hmem hhand
    · by_cases hdur : endsDur cfg o.time (route_frame cfg st o)
      · rw [update_cap_segmentation cfg o.person_detected o.time _ hrc habs
          hdur] at hmem
        exact hfin _ hmem hhand
      · rw [update_cap_continue cfg o.person_detected o.time _ hrc habs hdur]
          at hmem
        left
        rw [← hhand]
        exact hmem

/-- C6 counterexample: a concrete two-frame recording whose frames share one
timestamp (zero duration) is handed off to the encoder rather than
discarded, contradicting the strictly-positive-duration guarantee. -/
theorem C6_counterexample :
    (process_frame cfgA stDurA obsDurA).handoffs = [hDurA] ∧
    hDurA.segment.length = 2 ∧
    seg_duration hDurA.segment = 0 ∧
    hDurA.fps = cfgA.target_fps := by
  norm_num [process_frame, route_frame, update_event_state, ep_init, cfgA,
    stDurA, obsDurA, hDurA, handle_tripwire_logic, handle_dwell_logic,
    tw_result, dw_result, frame_datum, obs_frame_data, dequeAppend,
    set_event_type, type_priority, pm_person, pm_dwell, pm_trip, takeLastPy,
    start_encoding_thread, seg_duration]

/-- C6 witness: the hand-off bound applied to the concrete zero-duration
hand-off. -/
theorem C6_witness : 2 ≤ hDurA.segment.length := by
  have h := C6_handoff_frames cfgA stDurA obsDurA hDurA ?_
  · refine (h.resolve_left ?_).1
    simp [stDurA, ep_init]
  · have he : (process_frame cfgA stDurA obsDurA).handoffs = [hDurA] := by
      norm_num [process_frame, route_frame, update_event_state, ep_init, cfgA,
        stDurA, obsDurA, hDurA, handle_tripwire_logic, handle_dwell_logic,
        tw_result, dw_result, frame_datum, obs_frame_data, dequeAppend,
        set_event_type, type_priority, pm_person, pm_dwell, pm_trip,
        takeLastPy, start_encoding_thread, seg_duration]
    rw [he]
    simp

/-! ## Claim C4 -/

/-- C4: during one event's lifetime the event-type setter only ever replaces
the current type by one of strictly higher priority under
`person_detected < dwell_alert < tripwire_alert`; a proposed type of equal or
lower priority leaves the type unchanged, so the type priority is monotone
along any sequence of setter calls. -/
theorem C4_type_monotone (cur : Option String) (new_type : String)
    (l : List String) :
    (priority_map new_type ≤ type_priority cur →
      set_event_type cur new_type = cur) ∧
    (set_event_type cur new_type ≠ cur →
      type_priority cur < priority_map new_type ∧
        set_event_type cur new_type = some new_type) ∧
    type_priority cur ≤ type_priority (set_event_type cur new_type) ∧
    type_priority cur ≤ type_priority (l.foldl set_event_type cur) := by
  refine ⟨?_, ?_, type_priority_le_set cur new_type, type_priority_le_foldl l cur⟩
  · intro hle
    unfold set_event_type
    rw [if_neg (not_lt.mpr hle)]
  · intro hne
    unfold set_event_type at hne ⊢
    by_cases hlt : type_priority cur < priority_map new_type
    · rw [if_pos hlt]
      exact ⟨hlt, rfl⟩
    · rw [if_neg hlt] at hne
      exact absurd rfl hne

/-- C4 witness: a lower-priority proposal leaves `dwell_alert` unchanged. -/
theorem C4_witness :
    set_event_type (some "dwell_alert") "person_detected" =
      some "dwell_alert" :=
  (C4_type_monotone (some "dwell_alert") "person_detected" []).1 (by decide)

/-! ## Claim C9 -/

/-- C9 (amended): each publish writes `person_detected`, `tracked_objects`
and `track_roi_status` from the current frame, but overwrites
`reid_features_map` only when this frame produced a non-empty feature map —
otherwise the published Re-ID map (and its source frame) is retained from an
earlier frame, so the four entries need not refer to the same frame. -/
theorem C9_publish_consistency (st : Shared) (k : ℕ) (o : InferOut) :
    (publish_shared st k o).tracked_objects = o.tracks ∧
    (publish_shared st k o).track_roi_status = o.roi_status ∧
    (publish_shared st k o).person_detected = decide (0 < o.tracks.length) ∧
    (publish_shared st k o).tracks_src = k ∧
    (publish_shared st k o).roi_src = k ∧
    (o.reid_features_map ≠ [] →
      (publish_shared st k o).reid_features_map = o.reid_features_map ∧
      (publish_shared st k o).reid_src = k) ∧
    (o.reid_features_map = [] →
      (publish_shared st k o).reid_features_map = st.reid_features_map ∧
      (publish_shared st k o).reid_src = st.reid_src) := by
  refine ⟨rfl, rfl, rfl, rfl, rfl, ?_, ?_⟩
  · intro h
    have hne : o.reid_features_map.isEmpty = false := by
      cases hmap : o.reid_features_map with
      | nil => exact absurd hmap h
      | cons a t => rfl
    constructor
    · show (if o.reid_features_map.isEmpty then st.reid_features_map
        else o.reid_features_map) = o.reid_features_map
      rw [hne]
      rfl
    · show (if o.reid_features_map.isEmpty then st.reid_src else k) = k
      rw [hne]
      rfl
  · intro h
    have hne : o.reid_features_map.isEmpty = true := by rw [h]; rfl
    constructor
    · show (if o.reid_features_map.isEmpty then st.reid_features_map
        else o.reid_features_map) = st.reid_features_map
      rw [hne]
      rfl
    · show (if o.reid_features_map.isEmpty then st.reid_src else k) = st.reid_src
      rw [hne]
      rfl

/-- C9 counterexample: after a frame with features followed by a frame
without, the published Re-ID map still stems from the earlier frame while
tracks and ROI stem from the current one, contradicting the claim that all
published entries always refer to the same frame. -/
theorem C9_counterexample :
    (publish_shared (publish_shared sharedA 1 infA) 2 infB).tracks_src = 2 ∧
    (publish_shared (publish_shared sharedA 1 infA) 2 infB).reid_src = 1 ∧
    (publish_shared (publish_shared sharedA 1 infA) 2 infB).reid_features_map
      = [(1, 10)] := by
  refine ⟨rfl, rfl, rfl⟩

/-- C9 witness: the publish contract applied at a frame that produced
features. -/
theorem C9_witness :
    (publish_shared sharedA 1 infA).reid_src = 1 ∧
    (publish_shared sharedA 1 infA).tracks_src = 1 := by
  have h := C9_publish_consistency sharedA 1 infA
  exact ⟨(h.2.2.2.2.2.1 (by simp [infA])).2, h.2.2.2.1⟩

/-! ## Claim C1 -/

/-- C1 (amended): when the encoder subprocess exits non-zero,
`encode_and_send_video` persists no Event row and schedules no notification,
but the Re-ID gallery transaction has already been run and committed before
the return-code check: the resulting gallery is exactly the one produced by
`_process_reid_and_db`, not the unchanged input gallery. -/
theorem C1_encoder_failure (sim : ℕ → ℕ → ℚ) (thr : ℚ) (mode : String)
    (tfps : ℚ) (rc : ℤ) (rok eok ntf : Bool) (gal : List GPerson)
    (frames : List FrameData) (fps : ℚ) (feats : List ℕ) (ty : String)
    (hframes : frames ≠ []) (hfps : 0 < fps) (hrc : rc ≠ 0) :
    (encode_and_send_video sim thr mode tfps rc rok eok ntf gal frames fps
      feats ty).events = [] ∧
    (encode_and_send_video sim thr mode tfps rc rok eok ntf gal frames fps
      feats ty).notified = false ∧
    (encode_and_send_video sim thr mode tfps rc rok eok ntf gal frames fps
      feats ty).gallery =
        (process_reid_and_db sim thr thr rok gal feats).1 := by
  unfold encode_and_send_video
  rw [if_neg (by push_neg; exact ⟨hframes, hfps⟩)]
  rw [if_pos hrc]
  exact ⟨rfl, rfl, rfl⟩

/-- C1 counterexample: with a non-zero encoder exit code and one Re-ID
feature against an empty gallery, no Event row and no notification are
produced, yet a new Person row is committed to the gallery — contradicting
the claim that no Re-ID changes are committed for that event. -/
theorem C1_counterexample :
    (encode_and_send_video zero_sim (19 / 20) "SOURCE" 1 1 true true true []
      [fdA, fdB] 2 [7] "person_detected").events = [] ∧
    (encode_and_send_video zero_sim (19 / 20) "SOURCE" 1 1 true true true []
      [fdA, fdB] 2 [7] "person_detected").notified = false ∧
    (encode_and_send_video zero_sim (19 / 20) "SOURCE" 1 1 true true true []
      [fdA, fdB] 2 [7] "person_detected").gallery = [⟨1, [7], 1⟩] := by
  unfold encode_and_send_video
  rw [if_neg (by push_neg; exact ⟨by simp, by norm_num⟩)]
  rw [if_pos (by norm_num)]
  refine ⟨rfl, rfl, ?_⟩
  show (process_reid_and_db zero_sim (19 / 20) (19 / 20) true [] [7]).1 = _
  simp [process_reid_and_db, dedup_first, event_clusters, event_clusters_step,
    best_cluster_scan, cluster_add, reid_assignments, reconcile_loop,
    find_best_match_in_gallery, merge_loop, merge_step, merge_into,
    fresh_persons, next_pid, assign_pids, resolve_pid, alist_get, zero_sim]

/-- C1 witness: the encoder-failure theorem applied at the concrete failing
run. -/
theorem C1_witness :
    (encode_and_send_video zero_sim (19 / 20) "SOURCE" 1 1 true true true []
      [fdA, fdB] 2 [7] "person_detected").events = [] ∧
    (encode_and_send_video zero_sim (19 / 20) "SOURCE" 1 1 true true true []
      [fdA, fdB] 2 [7] "person_detected").notified = false := by
  have h := C1_encoder_failure zero_sim (19 / 20) "SOURCE" 1 1 true true true
    [] [fdA, fdB] 2 [7] "person_detected" (by simp) (by norm_num) (by norm_num)
  exact ⟨h.1, h.2.1⟩

/-! ## Claim C7 -/

/-- One dedup step keeps the accumulator non-empty. -/
theorem dedup_step_ne_nil (acc : List ℕ) (f : ℕ) (h : acc ≠ []) :
    (if f ∈ acc then acc else acc ++ [f]) ≠ [] := by
  split
  · exact h
  · simp

/-- The dedup fold keeps a non-empty accumulator non-empty. -/
theorem dedup_foldl_ne_nil (l : List ℕ) :
    ∀ acc : List ℕ, acc ≠ [] →
      l.foldl (fun acc f => if f ∈ acc then acc else acc ++ [f]) acc ≠ [] := by
  induction l with
  | nil => intro acc h; exact h
  | cons a t ih => intro acc h; exact ih _ (dedup_step_ne_nil acc a h)

/-- Dedup of a non-empty feature list is non-empty. -/
theorem dedup_first_ne_nil {l : List ℕ} (h : l ≠ []) : dedup_first l ≠ [] := by
  cases l with
  | nil => exact absurd rfl h
  | cons a t =>
    unfold dedup_first
    rw [List.foldl_cons]
    rw [show (if a ∈ ([] : List ℕ) then [] else [] ++ [a]) = [a] by simp]
    exact dedup_foldl_ne_nil t [a] (by simp)

/-- `cluster_add` preserves the number of clusters. -/
theorem cluster_add_length (clusters : List (List ℕ)) (i f : ℕ) :
    (cluster_add clusters i f).length = clusters.length := by
  simp [cluster_add]

/-- One clustering step never empties the cluster list. -/
theorem event_clusters_step_ne_nil (sim : ℕ → ℕ → ℚ) (thr : ℚ)
    (clusters : List (List ℕ)) (f : ℕ) (h : clusters ≠ []) :
    event_clusters_step sim thr clusters f ≠ [] := by
  unfold event_clusters_step
  dsimp only
  rcases hb : (best_cluster_scan sim f clusters).2 with _ | i
  · simp
  · dsimp only
    split
    · intro hx
      apply h
      have h0 : (cluster_add clusters i f).length = 0 := by rw [hx]; rfl
      rw [cluster_add_length] at h0
      exact List.length_eq_zero.mp h0
    · simp

/-- The clustering fold keeps a non-empty cluster list non-empty. -/
theorem event_clusters_foldl_ne_nil (sim : ℕ → ℕ → ℚ) (thr : ℚ)
    (l : List ℕ) :
    ∀ cs : List (List ℕ), cs ≠ [] →
      l.foldl (event_clusters_step sim thr) cs ≠ [] := by
  induction l with
  | nil => intro cs h; exact h
  | cons a t ih =>
    intro cs h
    exact ih _ (event_clusters_step_ne_nil sim thr cs a h)

/-- A non-empty feature list yields a non-empty cluster list. -/
theorem event_clusters_ne_nil (sim : ℕ → ℕ → ℚ) (thr : ℚ) {l : List ℕ}
    (h : l ≠ []) : event_clusters sim thr l ≠ [] := by
  cases l with
  | nil => exact absurd rfl h
  | cons a t =>
    unfold event_clusters
    rw [List.foldl_cons]
    refine event_clusters_foldl_ne_nil sim thr t _ ?_
    rw [show event_clusters_step sim thr [] a = [[a]] from rfl]
    simp

/-- A rolled-back Re-ID transaction never returns a person id. -/
theorem process_reid_rollback_none (sim : ℕ → ℕ → ℚ) (it gt : ℚ)
    (gal : List GPerson) (feats : List ℕ) :
    (process_reid_and_db sim it gt false gal feats).2 = none := by
  unfold process_reid_and_db
  split
  · rfl
  · dsimp only
    split
    · rfl
    · rfl

/-- C7: reconciliation returns null exactly when no features were provided
or the covering transaction was rolled back; on success it returns the id of
the first intra-event cluster's final identity; and when the transaction was
rolled back while the encoder succeeded, the Event row is still persisted
with a null person id. -/
theorem C7_reid_return_value (sim : ℕ → ℕ → ℚ) (it gt : ℚ) (ok : Bool)
    (gal : List GPerson) (feats : List ℕ) (mode : String) (tfps fps : ℚ)
    (eok ntf : Bool) (frames : List FrameData) (ty : String) :
    ((process_reid_and_db sim it gt ok gal feats).2 = none ↔
      feats = [] ∨ ok = false) ∧
    (feats ≠ [] → ok = true →
      (process_reid_and_db sim it gt ok gal feats).2 =
        some (reid_main_pid sim it gt gal feats)) ∧
    (frames ≠ [] → 0 < fps → eok = true →
      (encode_and_send_video sim gt mode tfps 0 false eok ntf gal frames fps
        feats ty).events = [(ty, none)]) := by
  have hmain : feats ≠ [] →
      (process_reid_and_db sim it gt true gal feats).2 =
        some (reid_main_pid sim it gt gal feats) := by
    intro h
    unfold process_reid_and_db reid_main_pid
    rw [if_neg h]
    dsimp only
    rw [if_neg (event_clusters_ne_nil sim it (dedup_first_ne_nil h))]
    rfl
  have hpart3 : frames ≠ [] → 0 < fps → eok = true →
      (encode_and_send_video sim gt mode tfps 0 false eok ntf gal frames fps
        feats ty).events = [(ty, none)] := by
    intro hf hfps heok
    unfold encode_and_send_video
    rw [if_neg (by push_neg; exact ⟨hf, hfps⟩)]
    rw [if_neg (by simp)]
    show (if eok = true then
      [(ty, (process_reid_and_db sim gt gt false gal feats).2)] else []) = _
    rw [if_pos heok, process_reid_rollback_none]
  refine ⟨⟨?_, ?_⟩, fun h1 h2 => by rw [h2]; exact hmain h1, hpart3⟩
  · intro hnone
    by_contra hor
    push_neg at hor
    have hok : ok = true := by
      cases ok
      · exact absurd rfl hor.2
      · rfl
    rw [hok] at hnone
    rw [hmain hor.1] at hnone
    exact Option.some_ne_none _ hnone
  · intro hor
    rcases hor with h | h
    · rw [h]
      unfold process_reid_and_db
      rw [if_pos rfl]
    · rw [h]
      exact process_reid_rollback_none sim it gt gal feats

/-- C7 witness: the return-value characterization at a concrete input, plus
the null-person-id Event row after a concrete rolled-back reconciliation. -/
theorem C7_witness :
    (process_reid_and_db zero_sim (19 / 20) (19 / 20) true [] [7]).2 =
      some (reid_main_pid zero_sim (19 / 20) (19 / 20) [] [7]) ∧
    (encode_and_send_video zero_sim (19 / 20) "SOURCE" 1 0 false true true []
      [fdA, fdB] 2 [7] "tripwire_alert").events = [("tripwire_alert", none)] := by
  have h := C7_reid_return_value zero_sim (19 / 20) (19 / 20) true [] [7]
    "SOURCE" 1 2 true true [fdA, fdB] "tripwire_alert"
  exact ⟨h.2.1 (by simp) rfl, h.2.2 (by simp) (by norm_num) rfl⟩

/-! ## Claim C8 -/

/-- `update_at` preserves the gallery length. -/
theorem update_at_length (f : GPerson → GPerson) :
    ∀ (l : List GPerson) (i : ℕ), (update_at f l i).length = l.length := by
  intro l
  induction l with
  | nil => intro i; rfl
  | cons p rest ih =>
    intro i
    cases i with
    | zero => rfl
    | succ n =>
      show (p :: update_at f rest n).length = (p :: rest).length
      simp [ih n]

/-- Lookup after `update_at`. -/
theorem update_at_get (f : GPerson → GPerson) :
    ∀ (l : List GPerson) (i j : ℕ),
      (update_at f l i).get? j =
        if i = j then (l.get? j).map f else l.get? j := by
  intro l
  induction l with
  | nil =>
    intro i j
    show (([] : List GPerson).get? j) = _
    split <;> simp
  | cons p rest ih =>
    intro i j
    cases i with
    | zero =>
      cases j with
      | zero => rfl
      | succ n =>
        show rest.get? n = if 0 = n + 1 then (rest.get? n).map f else rest.get? n
        rw [if_neg (by omega)]
    | succ m =>
      cases j with
      | zero =>
        show some p = if m + 1 = 0 then (some p).map f else some p
        rw [if_neg (by omega)]
      | succ n =>
        show (update_at f rest m).get? n =
          if m + 1 = n + 1 then (rest.get? n).map f else rest.get? n
        rw [ih m n]
        by_cases h : m = n
        · subst h
          rw [if_pos rfl, if_pos rfl]
        · rw [if_neg h, if_neg (by omega)]

/-- Loaded persons after a `db`-targeted merge step. -/
theorem merge_step_dbp_db (clusters : List (List ℕ)) (st : MergeState)
    (j i : ℕ) :
    (merge_step clusters st (j, PTarget.db i)).dbp =
      update_at (merge_into ((clusters.get? j).getD [])) st.dbp i := rfl

/-- Nascent persons are untouched by a `db`-targeted merge step. -/
theorem merge_step_newp_db (clusters : List (List ℕ)) (st : MergeState)
    (j i : ℕ) :
    (merge_step clusters st (j, PTarget.db i)).newp = st.newp := rfl

/-- Loaded persons are untouched by a `fresh`-targeted merge step. -/
theorem merge_step_dbp_fresh (clusters : List (List ℕ)) (st : MergeState)
    (j j2 : ℕ) :
    (merge_step clusters st (j, PTarget.fresh j2)).dbp = st.dbp := by
  unfold merge_step
  dsimp only
  split <;> rfl

/-- Nascent persons after a `fresh`-targeted merge step. -/
theorem merge_step_newp_fresh (clusters : List (List ℕ)) (st : MergeState)
    (j j2 : ℕ) :
    (merge_step clusters st (j, PTarget.fresh j2)).newp =
      if j2 = j then st.newp
      else fresh_append st.newp j2 ((clusters.get? j).getD []) := by
  unfold merge_step
  dsimp only
  split <;> rfl

/-- The merge loop preserves the loaded-gallery length. -/
theorem merge_loop_dbp_length (clusters : List (List ℕ)) :
    ∀ (assigns : List (ℕ × PTarget)) (st : MergeState),
      (merge_loop clusters st assigns).dbp.length = st.dbp.length := by
  intro assigns
  induction assigns with
  | nil => intro st; rfl
  | cons hd rest ih =>
    intro st
    show (merge_loop clusters (merge_step clusters st hd) rest).dbp.length = _
    rw [ih]
    obtain ⟨j, t⟩ := hd
    cases t with
    | db i =>
      rw [merge_step_dbp_db]
      exact update_at_length _ st.dbp i
    | fresh j2 =>
      rw [merge_step_dbp_fresh]

/-- Loaded-person sighting counts after the merge loop: each person at
position `i` is bumped once per assignment that maps a cluster to it. -/
theorem merge_loop_dbp_sighting (clusters : List (List ℕ)) :
    ∀ (assigns : List (ℕ × PTarget)) (st : MergeState) (i : ℕ),
      ((merge_loop clusters st assigns).dbp.get? i).map GPerson.sighting =
        (st.dbp.get? i).map (fun p => p.sighting +
          (assigns.filter (fun a => a.2 = PTarget.db i)).length) := by
  intro assigns
  induction assigns with
  | nil =>
    intro st i
    rw [show merge_loop clusters st [] = st from rfl]
    cases h : st.dbp.get? i with
    | none => rfl
    | some p => simp
  | cons hd rest ih =>
    intro st i
    obtain ⟨j, t⟩ := hd
    show ((merge_loop clusters (merge_step clusters st (j, t)) rest).dbp.get?
      i).map GPerson.sighting = _
    rw [ih]
    cases t with
    | db i2 =>
      rw [merge_step_dbp_db, update_at_get]
      by_cases hii : i2 = i
      · subst hii
        rw [if_pos rfl]
        rw [List.filter_cons]
        rw [if_pos (by simp)]
        cases h : st.dbp.get? i2 <;> simp [h, merge_into] <;> omega
      · rw [if_neg hii]
        rw [List.filter_cons]
        rw [if_neg (by simp [hii])]
    | fresh j2 =>
      rw [List.filter_cons]
      rw [if_neg (by simp)]
      rw [merge_step_dbp_fresh]

/-- `fresh_append` leaves every nascent person's sighting count alone. -/
theorem fresh_append_sightings (l : List (ℕ × GPerson)) (j : ℕ)
    (cf : List ℕ) :
    (fresh_append l j cf).map (fun e => e.2.sighting) =
      l.map (fun e => e.2.sighting) := by
  induction l with
  | nil => rfl
  | cons hd rest ih =>
    show (if hd.1 = j then (hd.1, { hd.2 with
        features := hd.2.features ++ cf }) else hd).2.sighting ::
      (fresh_append rest j cf).map (fun e => e.2.sighting) = _
    rw [ih]
    split <;> rfl

/-- The merge loop leaves every nascent person's sighting count alone. -/
theorem merge_loop_newp_sightings (clusters : List (List ℕ)) :
    ∀ (assigns : List (ℕ × PTarget)) (st : MergeState),
      (merge_loop clusters st assigns).newp.map (fun e => e.2.sighting) =
        st.newp.map (fun e => e.2.sighting) := by
  intro assigns
  induction assigns with
  | nil => intro st; rfl
  | cons hd rest ih =>
    intro st
    show (merge_loop clusters (merge_step clusters st hd) rest).newp.map _ = _
    rw [ih]
    obtain ⟨j, t⟩ := hd
    cases t with
    | db i => rfl
    | fresh j2 =>
      rw [merge_step_newp_fresh]
      split
      · rfl
      · exact fresh_append_sightings st.newp j2 _

/-- Every nascent person is created with sighting count 1. -/
theorem fresh_persons_sighting_one (clusters : List (List ℕ))
    (assigns : List (ℕ × PTarget)) :
    ∀ e ∈ fresh_persons clusters assigns, e.2.sighting = 1 := by
  intro e he
  unfold fresh_persons at he
  rw [List.mem_filterMap] at he
  obtain ⟨a, _, ha⟩ := he
  by_cases hc : a.2 = PTarget.fresh a.1
  · rw [if_pos hc] at ha
    cases ha
    rfl
  · rw [if_neg hc] at ha
    cases ha

/-- `assign_pids` leaves sighting counts alone. -/
theorem assign_pids_sightings (base : ℕ) (l : List (ℕ × GPerson)) :
    (assign_pids base l).map (fun e => e.2.sighting) =
      l.map (fun e => e.2.sighting) := by
  unfold assign_pids
  rw [List.map_map]
  have h2 : l.map (fun e => e.2.sighting) =
      (l.enum.map Prod.snd).map (fun e : ℕ × GPerson => e.2.sighting) := by
    rw [List.enum_map_snd]
  rw [h2, List.map_map]
  rfl

/-- C8 (amended): during the merge step, each loaded Person's
`sighting_count` is incremented once per intra-event cluster whose final
identity is that Person — so a Person matched by two clusters in the same
event is incremented twice, not once; Persons newly created in this event
keep their initial sighting count 1. -/
theorem C8_sighting_increments (sim : ℕ → ℕ → ℚ) (it gt : ℚ)
    (gal : List GPerson) (feats : List ℕ) (i : ℕ) (hi : i < gal.length) :
    (((process_reid_and_db sim it gt true gal feats).1.get? i).map
      GPerson.sighting =
      (gal.get? i).map (fun p => p.sighting +
        ((reid_assignments sim gt gal
          (event_clusters sim it (dedup_first feats))).filter
            (fun a => a.2 = PTarget.db i)).length)) ∧
    ∀ p ∈ (process_reid_and_db sim it gt true gal feats).1.drop gal.length,
      p.sighting = 1 := by
  by_cases hfe : feats = []
  · subst hfe
    constructor
    · show ((gal.get? i).map GPerson.sighting) = _
      rw [show reid_assignments sim gt gal
        (event_clusters sim it (dedup_first [])) = [] from rfl]
      cases h : gal.get? i <;> simp [h]
    · intro p hp
      rw [show (process_reid_and_db sim it gt true gal []).1 = gal from rfl,
        List.drop_length] at hp
      cases hp
  · have hcl : event_clusters sim it (dedup_first feats) ≠ [] :=
      event_clusters_ne_nil sim it (dedup_first_ne_nil hfe)
    have hres : (process_reid_and_db sim it gt true gal feats).1 =
        (merge_loop (event_clusters sim it (dedup_first feats))
          ⟨gal, fresh_persons (event_clusters sim it (dedup_first feats))
            (reid_assignments sim gt gal
              (event_clusters sim it (dedup_first feats)))⟩
          (reid_assignments sim gt gal
            (event_clusters sim it (dedup_first feats)))).dbp ++
        (assign_pids (next_pid gal)
          (merge_loop (event_clusters sim it (dedup_first feats))
            ⟨gal, fresh_persons (event_clusters sim it (dedup_first feats))
              (reid_assignments sim gt gal
                (event_clusters sim it (dedup_first feats)))⟩
            (reid_assignments sim gt gal
              (event_clusters sim it (dedup_first feats)))).newp).map
          (fun e => e.2) := by
      unfold process_reid_and_db
      rw [if_neg hfe]
      dsimp only
      rw [if_neg hcl]
      rfl
    have hlen : (merge_loop (event_clusters sim it (dedup_first feats))
        ⟨gal, fresh_persons (event_clusters sim it (dedup_first feats))
          (reid_assignments sim gt gal
            (event_clusters sim it (dedup_first feats)))⟩
        (reid_assignments sim gt gal
          (event_clusters sim it (dedup_first feats)))).dbp.length =
        gal.length :=
      merge_loop_dbp_length _ _ _
    constructor
    · rw [hres]
      rw [List.get?_append (by rw [hlen]; exact hi)]
      rw [merge_loop_dbp_sighting]
    · intro p hp
      rw [hres] at hp
      rw [show gal.length = (merge_loop
        (event_clusters sim it (dedup_first feats))
        ⟨gal, fresh_persons (event_clusters sim it (dedup_first feats))
          (reid_assignments sim gt gal
            (event_clusters sim it (dedup_first feats)))⟩
        (reid_assignments sim gt gal
          (event_clusters sim it (dedup_first feats)))).dbp.length from
          hlen.symm, List.drop_left] at hp
      have hsig : p.sighting ∈ ((assign_pids (next_pid gal)
          (merge_loop (event_clusters sim it (dedup_first feats))
            ⟨gal, fresh_persons (event_clusters sim it (dedup_first feats))
              (reid_assignments sim gt gal
                (event_clusters sim it (dedup_first feats)))⟩
            (reid_assignments sim gt gal
              (event_clusters sim it (dedup_first feats)))).newp).map
            (fun e => e.2)).map GPerson.sighting :=
        List.mem_map_of_mem GPerson.sighting hp
      rw [List.map_map] at hsig
      rw [show (GPerson.sighting ∘ fun e : ℕ × GPerson => e.2) =
        (fun e : ℕ × GPerson => e.2.sighting) from rfl] at hsig
      rw [assign_pids_sightings] at hsig
      rw [merge_loop_newp_sightings] at hsig
      rw [List.mem_map] at hsig
      obtain ⟨e, he, hee⟩ := hsig
      rw [← hee]
      exact fresh_persons_sighting_one _ _ e he

/-- C8 counterexample: with two intra-event clusters each matching the same
loaded Person (features 2 and 3 matching gallery features 0 and 1 at 0.97),
that Person's sighting count goes from 1 to 3 — two increments in one event,
contradicting the claim of exactly one increment per matched Person per
event. -/
theorem C8_counterexample :
    reid_assignments simC8 (19 / 20) galC8
      (event_clusters simC8 (9 / 10) (dedup_first [2, 3])) =
      [(0, PTarget.db 0), (1, PTarget.db 0)] ∧
    (process_reid_and_db simC8 (9 / 10) (19 / 20) true galC8 [2, 3]).1.map
      GPerson.sighting = [3] := by
  norm_num [process_reid_and_db, dedup_first, event_clusters,
    event_clusters_step, best_cluster_scan, cluster_add, reid_assignments,
    reconcile_loop, find_best_match_in_gallery, merge_loop, merge_step,
    merge_into, update_at, fresh_append, fresh_persons, next_pid, assign_pids,
    resolve_pid, alist_get, simC8, galC8]
  simp

/-- C8 witness: the per-cluster increment law at the double-match input. -/
theorem C8_witness :
    (((process_reid_and_db simC8 (9 / 10) (19 / 20) true galC8
      [2, 3]).1.get? 0).map GPerson.sighting) =
      ((galC8.get? 0).map (fun p => p.sighting +
        ((reid_assignments simC8 (19 / 20) galC8
          (event_clusters simC8 (9 / 10) (dedup_first [2, 3]))).filter
            (fun a => a.2 = PTarget.db 0)).length)) :=
  (C8_sighting_increments simC8 (9 / 10) (19 / 20) galC8 [2, 3] 0
    (by simp [galC8])).1

/-! ## Claim C5 -/

/-- A dictionary with no entry for `k` looks up `k` to nothing. -/
theorem alist_get_nokey {α : Type} (k : ℕ) (m : List (ℕ × α))
    (h : ¬ m.any (fun e => e.1 == k) = true) :
    alist_get m k = none := by
  unfold alist_get
  rw [List.find?_eq_none.mpr]
  · rfl
  · intro x hx hpx
    exact h (List.any_eq_true.mpr ⟨x, hx, hpx⟩)

/-- An in-place replace at key `k` does not change lookups at other keys. -/
theorem alist_get_map_set_ne {α : Type} (k k2 : ℕ) (v : α) (hne : k ≠ k2)
    (m : List (ℕ × α)) :
    alist_get (m.map (fun e => if e.1 == k then (k, v) else e)) k2 =
      alist_get m k2 := by
  induction m with
  | nil => rfl
  | cons hd tl ih =>
    rw [List.map_cons]
    by_cases h : hd.1 = k
    · rw [if_pos (by simp [h])]
      unfold alist_get at ih ⊢
      rw [List.find?_cons_of_neg _ (by simp [hne])]
      rw [List.find?_cons_of_neg _ (by simp [h]; exact hne)]
      exact ih
    · rw [if_neg (by simp [h])]
      by_cases h2 : hd.1 = k2
      · unfold alist_get
        rw [List.find?_cons_of_pos _ (by simp [h2])]
        rw [List.find?_cons_of_pos _ (by simp [h2])]
      · unfold alist_get at ih ⊢
        rw [List.find?_cons_of_neg _ (by simp [h2])]
        rw [List.find?_cons_of_neg _ (by simp [h2])]
        exact ih

/-- An in-place replace at a present key `k` makes `k` look up the new
value. -/
theorem alist_get_map_set_eq {α : Type} (k : ℕ) (v : α) (m : List (ℕ × α))
    (h : m.any (fun e => e.1 == k) = true) :
    alist_get (m.map (fun e => if e.1 == k then (k, v) else e)) k = some v := by
  induction m with
  | nil => cases h
  | cons hd tl ih =>
    rw [List.map_cons]
    by_cases hh : hd.1 = k
    · rw [if_pos (by simp [hh])]
      unfold alist_get
      rw [List.find?_cons_of_pos _ (by simp)]
      rfl
    · rw [if_neg (by simp [hh])]
      unfold alist_get at ih ⊢
      rw [List.find?_cons_of_neg _ (by simp [hh])]
      apply ih
      simpa [List.any_cons, hh] using h

/-- Appending a fresh pair at the back only affects lookups of its key when
the key was absent. -/
theorem alist_get_append_pair {α : Type} (k k2 : ℕ) (v : α)
    (m : List (ℕ × α)) :
    alist_get (m ++ [(k, v)]) k2 =
      (alist_get m k2).or (if k = k2 then some v else none) := by
  unfold alist_get
  rw [List.find?_append]
  cases hf : m.find? (fun e => e.1 == k2) with
  | some e => simp
  | none =>
    by_cases hk : k = k2
    · simp [List.find?, hk]
    · have hb : (k == k2) = false := by simp [hk]
      simp [List.find?, hb, hk]

/-- Lookup after a dictionary write `m[k] = v`. -/
theorem alist_get_set {α : Type} (k k2 : ℕ) (v : α) (m : List (ℕ × α)) :
    alist_get (alist_set m k v) k2 =
      if k = k2 then some v else alist_get m k2 := by
  unfold alist_set
  by_cases hany : m.any (fun e => e.1 == k) = true
  · rw [if_pos hany]
    by_cases hk : k = k2
    · subst hk
      rw [if_pos rfl]
      exact alist_get_map_set_eq k v m hany
    · rw [if_neg hk]
      exact alist_get_map_set_ne k k2 v hk m
  · rw [if_neg hany]
    rw [alist_get_append_pair]
    by_cases hk : k = k2
    · subst hk
      rw [if_pos rfl, if_pos rfl]
      rw [alist_get_nokey k m hany]
      rfl
    · rw [if_neg hk, if_neg hk]
      simp

/-- Key membership after a dictionary write. -/
theorem mem_alist_keys_set {α : Type} (k k2 : ℕ) (v : α)
    (m : List (ℕ × α)) :
    k2 ∈ alist_keys (alist_set m k v) ↔ k2 = k ∨ k2 ∈ alist_keys m := by
  unfold alist_set alist_keys
  by_cases hany : m.any (fun e => e.1 == k) = true
  · rw [if_pos hany]
    rw [List.map_map]
    constructor
    · intro hmem
      rw [List.mem_map] at hmem
      obtain ⟨e, he, heq⟩ := hmem
      by_cases hek : e.1 = k
      · left
        rw [← heq]
        simp [hek]
      · right
        rw [List.mem_map]
        exact ⟨e, he, by rw [← heq]; simp [hek]⟩
    · intro hmem
      rcases hmem with h | h
      · rw [List.any_eq_true] at hany
        obtain ⟨e, he, hek⟩ := hany
        rw [List.mem_map]
        refine ⟨e, he, ?_⟩
        simp only [Function.comp]
        rw [if_pos hek]
        exact h.symm
      · rw [List.mem_map] at h ⊢
        obtain ⟨e, he, hek⟩ := h
        refine ⟨e, he, ?_⟩
        simp only [Function.comp]
        by_cases hk : e.1 = k
        · rw [if_pos (by simp [hk])]
          show k = k2
          rw [← hek, hk]
        · rw [if_neg (by simp [hk])]
          exact hek
  · rw [if_neg hany]
    rw [List.map_append]
    rw [List.mem_append]
    show k2 ∈ List.map (fun e => e.1) m ∨ k2 ∈ [k] ↔ _
    simp [or_comm]

/-- Lookup after the disappeared-id cleanup. -/
theorem alist_get_restrict {α : Type} (keep : List ℕ) (k : ℕ) :
    ∀ m : List (ℕ × α),
      alist_get (alist_restrict m keep) k =
        if k ∈ keep then alist_get m k else none := by
  intro m
  induction m with
  | nil =>
    show (none : Option α) = if k ∈ keep then none else none
    split <;> rfl
  | cons hd tl ih =>
    unfold alist_restrict at ih ⊢
    rw [List.filter_cons]
    by_cases hmem : hd.1 ∈ keep
    · rw [if_pos (by simpa using hmem)]
      by_cases hk : hd.1 = k
      · unfold alist_get
        rw [List.find?_cons_of_pos _ (by simp [hk])]
        rw [if_pos (hk ▸ hmem)]
        rw [List.find?_cons_of_pos _ (by simp [hk])]
      · unfold alist_get at ih ⊢
        rw [List.find?_cons_of_neg _ (by simp [hk])]
        rw [ih]
        by_cases hkk : k ∈ keep
        · rw [if_pos hkk, if_pos hkk]
          rw [List.find?_cons_of_neg _ (by simp [hk])]
        · rw [if_neg hkk, if_neg hkk]
    · rw [if_neg (by simpa using hmem)]
      rw [ih]
      by_cases hkk : k ∈ keep
      · rw [if_pos hkk, if_pos hkk]
        have hk : hd.1 ≠ k := fun hx => hmem (hx ▸ hkk)
        unfold alist_get
        rw [List.find?_cons_of_neg _ (by simp [hk])]
      · rw [if_neg hkk, if_neg hkk]

/-- The scan over the configured tripwires alerts exactly when some tripwire
alerts. -/
theorem find_tripwire_alert_iff (last cur : Pt) :
    ∀ tws : List Tripwire,
      find_tripwire_alert last cur tws = true ↔
        ∃ tw ∈ tws, trip_alert_on last cur tw = true := by
  intro tws
  induction tws with
  | nil => simp [find_tripwire_alert]
  | cons tw rest ih =>
    unfold find_tripwire_alert
    by_cases h : trip_alert_on last cur tw = true
    · rw [if_pos h]
      simp [h]
    · rw [if_neg h]
      rw [ih]
      constructor
      · rintro ⟨tw2, h2, h3⟩
        exact ⟨tw2, List.mem_cons_of_mem _ h2, h3⟩
      · rintro ⟨tw2, h2, h3⟩
        rcases List.mem_cons.mp h2 with he | he
        · subst he
          exact absurd h3 h
        · exact ⟨tw2, he, h3⟩

/-- The per-track firing condition, spelled out. -/
theorem track_fires_iff (tws : List Tripwire) (m : List (ℕ × Pt))
    (t : Track) :
    track_fires tws m t = true ↔
      ∃ last, alist_get m t.id = some last ∧ last ≠ bottom_center t ∧
        ∃ tw ∈ tws, trip_alert_on last (bottom_center t) tw = true := by
  unfold track_fires
  cases h : alist_get m t.id with
  | none => simp
  | some last =>
    rw [Bool.and_eq_true, Bool.and_eq_true]
    rw [find_tripwire_alert_iff]
    constructor
    · rintro ⟨⟨hne, _⟩, hfind⟩
      exact ⟨last, rfl, by simpa using hne, hfind⟩
    · rintro ⟨last2, hl, hne, tw, htw, halert⟩
      have hl2 : last2 = last := by
        injection hl.symm
      subst hl2
      refine ⟨⟨by simpa using hne, ?_⟩, ⟨tw, htw, halert⟩⟩
      cases tws with
      | nil => cases htw
      | cons a b => rfl

/-- The per-tripwire alert condition, spelled out: intersection, strict side
change with both sides non-zero, and an admitted crossing direction. -/
theorem trip_alert_on_iff (last cur : Pt) (tw : Tripwire) :
    trip_alert_on last cur tw = true ↔
      seg_intersects last cur tw.p1 tw.p2 = true ∧
      get_point_side_of_line last tw.p1 tw.p2 ≠ 0 ∧
      get_point_side_of_line cur tw.p1 tw.p2 ≠ 0 ∧
      get_point_side_of_line last tw.p1 tw.p2 ≠
        get_point_side_of_line cur tw.p1 tw.p2 ∧
      (tw.direction = "both" ∨
        (tw.direction = "cross_to_right" ∧
          get_point_side_of_line last tw.p1 tw.p2 = 1 ∧
          get_point_side_of_line cur tw.p1 tw.p2 = -1) ∨
        (tw.direction = "cross_to_left" ∧
          get_point_side_of_line last tw.p1 tw.p2 = -1 ∧
          get_point_side_of_line cur tw.p1 tw.p2 = 1)) := by
  unfold trip_alert_on
  simp only [Bool.and_eq_true, Bool.or_eq_true, decide_eq_true_eq]
  tauto

/-- Track ids absent from the frame keep their old positions through the
track loop. -/
theorem loop_get_untouched (tws : List Tripwire) :
    ∀ (tracks : List Track) (m : List (ℕ × Pt)) (s : Finset ℕ)
      (ty : Option String) (k : ℕ),
      (∀ t ∈ tracks, t.id ≠ k) →
      alist_get (tripwire_track_loop tws tracks m s ty).1 k =
        alist_get m k := by
  intro tracks
  induction tracks with
  | nil => intro m s ty k _; rfl
  | cons t rest ih =>
    intro m s ty k hk
    have hne : t.id ≠ k := hk t (List.mem_cons_self t rest)
    have hrest : ∀ t2 ∈ rest, t2.id ≠ k :=
      fun t2 h2 => hk t2 (List.mem_cons_of_mem _ h2)
    unfold tripwire_track_loop
    split
    · rw [ih _ _ _ _ hrest, alist_get_set, if_neg hne]
    · rw [ih _ _ _ _ hrest, alist_get_set, if_neg hne]

/-- After the track loop, every track of the frame maps to its current
bottom-center point. -/
theorem loop_get_position (tws : List Tripwire) :
    ∀ (tracks : List Track) (m : List (ℕ × Pt)) (s : Finset ℕ)
      (ty : Option String),
      (tracks.map Track.id).Nodup →
      ∀ t ∈ tracks,
        alist_get (tripwire_track_loop tws tracks m s ty).1 t.id =
          some (bottom_center t) := by
  intro tracks
  induction tracks with
  | nil => intro m s ty _ t ht; cases ht
  | cons t0 rest ih =>
    intro m s ty hnd t ht
    have hnd' : (t0.id :: rest.map Track.id).Nodup := by
      rw [List.map_cons] at hnd
      exact hnd
    have hnd2 : (rest.map Track.id).Nodup := hnd'.of_cons
    have hnotin : t0.id ∉ rest.map Track.id := (List.nodup_cons.mp hnd').1
    rcases List.mem_cons.mp ht with he | he
    · subst he
      have hrest : ∀ t2 ∈ rest, t2.id ≠ t.id := by
        intro t2 h2 he2
        exact hnotin (he2 ▸ List.mem_map_of_mem Track.id h2)
      unfold tripwire_track_loop
      split
      · rw [loop_get_untouched tws rest _ _ _ _ hrest,
          alist_get_set, if_pos rfl]
      · rw [loop_get_untouched tws rest _ _ _ _ hrest,
          alist_get_set, if_pos rfl]
    · unfold tripwire_track_loop
      split
      · exact ih _ _ _ hnd2 t he
      · exact ih _ _ _ hnd2 t he

/-- Key membership after the track loop. -/
theorem loop_keys (tws : List Tripwire) :
    ∀ (tracks : List Track) (m : List (ℕ × Pt)) (s : Finset ℕ)
      (ty : Option String) (k : ℕ),
      k ∈ alist_keys (tripwire_track_loop tws tracks m s ty).1 ↔
        k ∈ alist_keys m ∨ k ∈ tracks.map Track.id := by
  intro tracks
  induction tracks with
  | nil => intro m s ty k; simp [tripwire_track_loop]
  | cons t rest ih =>
    intro m s ty k
    unfold tripwire_track_loop
    rw [List.map_cons, List.mem_cons]
    split
    · rw [ih]
      rw [mem_alist_keys_set]
      tauto
    · rw [ih]
      rw [mem_alist_keys_set]
      tauto

/-- Alert-set membership after the track loop: an id is in the set exactly
when it was already there or its track fired against the pre-frame
last-position map. -/
theorem loop_alert_mem (tws : List Tripwire) :
    ∀ (tracks : List Track) (m : List (ℕ × Pt)) (s : Finset ℕ)
      (ty : Option String) (k : ℕ),
      (tracks.map Track.id).Nodup →
      (k ∈ (tripwire_track_loop tws tracks m s ty).2.1 ↔
        k ∈ s ∨ ∃ t ∈ tracks, t.id = k ∧ track_fires tws m t = true) := by
  intro tracks
  induction tracks with
  | nil => intro m s ty k _; simp [tripwire_track_loop]
  | cons t0 rest ih =>
    intro m s ty k hnd
    have hnd' : (t0.id :: rest.map Track.id).Nodup := by
      rw [List.map_cons] at hnd
      exact hnd
    have hnd2 : (rest.map Track.id).Nodup := hnd'.of_cons
    have hnotin : t0.id ∉ rest.map Track.id := (List.nodup_cons.mp hnd').1
    have hfires2 : ∀ t2 ∈ rest,
        track_fires tws (alist_set m t0.id (bottom_center t0)) t2 =
          track_fires tws m t2 := by
      intro t2 h2
      have hne : t0.id ≠ t2.id := by
        intro he
        exact hnotin (he ▸ List.mem_map_of_mem Track.id h2)
      unfold track_fires
      rw [alist_get_set, if_neg hne]
    have hre : ∀ s2 : Finset ℕ,
        ((∃ t ∈ rest, t.id = k ∧ track_fires tws
          (alist_set m t0.id (bottom_center t0)) t = true) ↔
        (∃ t ∈ rest, t.id = k ∧ track_fires tws m t = true)) := by
      intro s2
      constructor
      · rintro ⟨t, ht, hid, hfi⟩
        exact ⟨t, ht, hid, (hfires2 t ht) ▸ hfi⟩
      · rintro ⟨t, ht, hid, hfi⟩
        exact ⟨t, ht, hid, (hfires2 t ht).symm ▸ hfi⟩
    unfold tripwire_track_loop
    by_cases hf : track_fires tws m t0 = true
    · rw [if_pos hf]
      rw [ih _ _ _ _ hnd2]
      rw [hre s]
      simp only [Finset.mem_insert, List.mem_cons]
      constructor
      · rintro ((he | hs) | ⟨t, ht, hid, hfi⟩)
        · exact Or.inr ⟨t0, Or.inl rfl, he.symm, hf⟩
        · exact Or.inl hs
        · exact Or.inr ⟨t, Or.inr ht, hid, hfi⟩
      · rintro (hs | ⟨t, he | ht, hid, hfi⟩)
        · exact Or.inl (Or.inr hs)
        · subst he
          exact Or.inl (Or.inl hid.symm)
        · exact Or.inr ⟨t, ht, hid, hfi⟩
    · rw [if_neg hf]
      rw [ih _ _ _ _ hnd2]
      rw [hre s]
      simp only [List.mem_cons]
      constructor
      · rintro (hs | ⟨t, ht, hid, hfi⟩)
        · exact Or.inl hs
        · exact Or.inr ⟨t, Or.inr ht, hid, hfi⟩
      · rintro (hs | ⟨t, he | ht, hid, hfi⟩)
        · exact Or.inl hs
        · subst he
          exact absurd hfi hf
        · exact Or.inr ⟨t, ht, hid, hfi⟩

/-- C5: a tripwire alert is recorded for a track exactly when its previous
position exists, differs from the current bottom-center, and some tripwire
satisfies: the movement segment intersects it, the side (cross product sign)
strictly changes with both sides non-zero, and the crossing direction is
admitted; collinear points (cross product within tolerance) give side 0 and
never alert; and track ids no longer present are removed from both the
last-position map and the active alert id set. -/
theorem C5_tripwire_crossings (tws : List Tripwire) (tracks : List Track)
    (m : List (ℕ × Pt)) (s : Finset ℕ) (ty : Option String)
    (hnd : (tracks.map Track.id).Nodup) :
    (∀ k, k ∈ (handle_tripwire_logic true tws tracks m s ty).2.1 ↔
      ((∃ t ∈ tracks, t.id = k ∧ ∃ last, alist_get m t.id = some last ∧
        last ≠ bottom_center t ∧ ∃ tw ∈ tws,
          seg_intersects last (bottom_center t) tw.p1 tw.p2 = true ∧
          get_point_side_of_line last tw.p1 tw.p2 ≠ 0 ∧
          get_point_side_of_line (bottom_center t) tw.p1 tw.p2 ≠ 0 ∧
          get_point_side_of_line last tw.p1 tw.p2 ≠
            get_point_side_of_line (bottom_center t) tw.p1 tw.p2 ∧
          (tw.direction = "both" ∨
            (tw.direction = "cross_to_right" ∧
              get_point_side_of_line last tw.p1 tw.p2 = 1 ∧
              get_point_side_of_line (bottom_center t) tw.p1 tw.p2 = -1) ∨
            (tw.direction = "cross_to_left" ∧
              get_point_side_of_line last tw.p1 tw.p2 = -1 ∧
              get_point_side_of_line (bottom_center t) tw.p1 tw.p2 = 1))) ∨
        k ∈ s) ∧
      (k ∈ tracks.map Track.id ∨ k ∉ alist_keys m)) ∧
    (∀ t ∈ tracks,
      alist_get (handle_tripwire_logic true tws tracks m s ty).1 t.id =
        some (bottom_center t)) ∧
    (∀ k, k ∉ tracks.map Track.id →
      alist_get (handle_tripwire_logic true tws tracks m s ty).1 k = none ∧
      (k ∈ alist_keys m →
        k ∉ (handle_tripwire_logic true tws tracks m s ty).2.1)) ∧
    (∀ p a b : Pt,
      |(b.x - a.x) * (p.y - a.y) - (b.y - a.y) * (p.x - a.x)| ≤ sideTol →
        get_point_side_of_line p a b = 0) ∧
    (∀ (last cur : Pt) (tw : Tripwire),
      get_point_side_of_line last tw.p1 tw.p2 = 0 ∨
        get_point_side_of_line cur tw.p1 tw.p2 = 0 →
      trip_alert_on last cur tw = false) := by
  have hmem : ∀ k, k ∈ (handle_tripwire_logic true tws tracks m s ty).2.1 ↔
      (k ∈ s ∨ ∃ t ∈ tracks, t.id = k ∧ track_fires tws m t = true) ∧
        ¬ (k ∈ alist_keys (tripwire_track_loop tws tracks m s ty).1 ∧
          k ∉ tracks.map Track.id) := by
    intro k
    show k ∈ (tripwire_track_loop tws tracks m s ty).2.1.filter _ ↔ _
    rw [Finset.mem_filter]
    rw [loop_alert_mem tws tracks m s ty k hnd]
  refine ⟨?_, ?_, ?_, ?_, ?_⟩
  · intro k
    have hkeys_iff : (¬ (k ∈ alist_keys
        (tripwire_track_loop tws tracks m s ty).1 ∧
          k ∉ tracks.map Track.id)) ↔
        (k ∈ tracks.map Track.id ∨ k ∉ alist_keys m) := by
      rw [loop_keys]
      by_cases hid : k ∈ tracks.map Track.id <;>
        by_cases hkm : k ∈ alist_keys m <;> simp [hid, hkm]
    have hfir : (∃ t ∈ tracks, t.id = k ∧ track_fires tws m t = true) ↔
        (∃ t ∈ tracks, t.id = k ∧ ∃ last, alist_get m t.id = some last ∧
          last ≠ bottom_center t ∧ ∃ tw ∈ tws,
            seg_intersects last (bottom_center t) tw.p1 tw.p2 = true ∧
            get_point_side_of_line last tw.p1 tw.p2 ≠ 0 ∧
            get_point_side_of_line (bottom_center t) tw.p1 tw.p2 ≠ 0 ∧
            get_point_side_of_line last tw.p1 tw.p2 ≠
              get_point_side_of_line (bottom_center t) tw.p1 tw.p2 ∧
            (tw.direction = "both" ∨
              (tw.direction = "cross_to_right" ∧
                get_point_side_of_line last tw.p1 tw.p2 = 1 ∧
                get_point_side_of_line (bottom_center t) tw.p1 tw.p2 = -1) ∨
              (tw.direction = "cross_to_left" ∧
                get_point_side_of_line last tw.p1 tw.p2 = -1 ∧
                get_point_side_of_line (bottom_center t) tw.p1 tw.p2 = 1))) := by
      apply exists_congr
      intro t
      apply and_congr_right
      intro _
      apply and_congr_right
      intro _
      rw [track_fires_iff]
      apply exists_congr
      intro last
      apply and_congr_right
      intro _
      apply and_congr_right
      intro _
      apply exists_congr
      intro tw
      apply and_congr_right
      intro _
      exact trip_alert_on_iff _ _ _
    rw [hmem k]
    exact and_congr (by rw [or_comm]; exact or_congr_left hfir) hkeys_iff
  · intro t ht
    show alist_get (alist_restrict (tripwire_track_loop tws tracks m s ty).1
      (tracks.map Track.id)) t.id = some (bottom_center t)
    rw [alist_get_restrict]
    rw [if_pos (List.mem_map_of_mem Track.id ht)]
    exact loop_get_position tws tracks m s ty hnd t ht
  · intro k hk
    constructor
    · show alist_get (alist_restrict (tripwire_track_loop tws tracks m s ty).1
        (tracks.map Track.id)) k = none
      rw [alist_get_restrict, if_neg hk]
    · intro hkeys hmem2
      rw [hmem k] at hmem2
      exact hmem2.2 ⟨(loop_keys tws tracks m s ty k).mpr (Or.inl hkeys), hk⟩
  · intro p a b h
    rw [abs_le] at h
    show (if ((b.x - a.x) * (p.y - a.y) - (b.y - a.y) * (p.x - a.x)) > sideTol
      then (-1 : ℤ)
      else if ((b.x - a.x) * (p.y - a.y) - (b.y - a.y) * (p.x - a.x)) <
        -sideTol then 1 else 0) = 0
    rw [if_neg (not_lt.mpr h.2), if_neg (not_lt.mpr h.1)]
  · intro last cur tw h
    cases hbv : trip_alert_on last cur tw with
    | false => rfl
    | true =>
      obtain ⟨_, h1, h2, _, _⟩ := (trip_alert_on_iff last cur tw).mp hbv
      rcases h with h0 | h0
      · exact absurd h0 h1
      · exact absurd h0 h2

/-- C5 witness: a concrete left-to-right crossing of a vertical tripwire by
track 7 is recorded in the alert id set. -/
theorem C5_witness :
    7 ∈ (handle_tripwire_logic true [twA] [trA] posA ∅ none).2.1 := by
  have h := (C5_tripwire_crossings [twA] [trA] posA ∅ none (by simp)).1 7
  refine h.mpr ⟨Or.inl ⟨trA, by simp, rfl, ⟨4, 5⟩, ?_, ?_, twA, by simp,
    ?_, ?_, ?_, ?_, Or.inl rfl⟩, Or.inl (by simp [trA])⟩
  · simp [posA, alist_get, trA]
  · norm_num [bottom_center, trA, Pt.mk.injEq]
  · norm_num [seg_intersects, cross2, qsign, onSegBox, bottom_center, trA, twA]
  · norm_num [get_point_side_of_line, sideTol, trA, twA]
  · norm_num [get_point_side_of_line, sideTol, bottom_center, trA, twA]
  · norm_num [get_point_side_of_line, sideTol, bottom_center, trA, twA]

end Moshou
